import Mathlib

/-!
Verification of the prototype matching and free-parameter solving engine of
kim-tools (`kim_tools/aflow_util/core.py` and `kim_tools/symmetry_util/core.py`).

The Python code is shallowly embedded: pure helper functions become Lean
functions, Python exceptions become an explicit `KimError` sum carried in
`Except`, floating-point quantities are modelled by rationals, and the three
external capabilities (aflow structure generation, aflow structure comparison,
spglib symmetry detection, numpy least squares) are supplied as oracle inputs.
-/

namespace KimToolsProofs

attribute [local semireducible] Rat.add Rat.sub Rat.mul Rat.inv

/-- ASCII alphabetic test, modelling `curses.ascii.isalpha`. -/
def isalpha (c : Char) : Bool :=
  ('a' ≤ c && c ≤ 'z') || ('A' ≤ c && c ≤ 'Z')

/-- ASCII digit test, modelling `curses.ascii.isdigit`. -/
def isdigit (c : Char) : Bool :=
  '0' ≤ c && c ≤ '9'

/-- Numeric value of an ASCII digit character. -/
def digitVal (c : Char) : Nat := c.toNat - 48

/-- Exception kinds raised by the embedded code.  The first six correspond to
the exception classes declared in `kim_tools/aflow_util/core.py`; the rest
model the Python builtin exceptions the code can raise. -/
inductive KimError where
  | incorrectNumAtomsException
  | spglibFailureException
  | incorrectSpaceGroupException
  | incorrectNumSpeciesException
  | inconsistentWyckoffException
  | failedToMatchException
  | tooSymmetricException
  | assertionError
  | indexError
  | keyError
  | valueError
  | typeError
  | notImplementedError
  deriving DecidableEq, Repr

deriving instance DecidableEq for Except

/-- Splitting a character list at a separator, modelling Python `str.split(sep)`
(e.g. splitting a prototype label at underscores). -/
def splitChar (sep : Char) : List Char → List (List Char)
  | [] => [[]]
  | c :: rest =>
    let r := splitChar sep rest
    if c = sep then [] :: r
    else
      match r with
      | s :: ss => (c :: s) :: ss
      | [] => [[c]]

/-- Sections of a prototype label, modelling `prototype_label.split("_")`. -/
def labelSections (prototype_label : String) : List (List Char) :=
  splitChar '_' prototype_label.data

/-- Parse a digit string as a natural number, modelling `int(s)` applied to the
plain digit strings occurring in prototype labels and parameter names
(`ValueError` on anything else). -/
def parseNat (s : List Char) : Except KimError Nat :=
  if s ≠ [] ∧ s.all isdigit then
    .ok (s.foldl (fun acc c => acc * 10 + digitVal c) 0)
  else .error .valueError

/-- Model of `get_space_group_number_from_prototype`:
`int(prototype_label.split('_')[2])`. -/
def get_space_group_number_from_prototype (prototype_label : String) :
    Except KimError Nat :=
  match (labelSections prototype_label).get? 2 with
  | none => .error .indexError
  | some s => parseNat s

/-- Model of `get_pearson_symbol_from_prototype`: `prototype_label.split('_')[1]`. -/
def get_pearson_symbol_from_prototype (prototype_label : String) :
    Except KimError (List Char) :=
  match (labelSections prototype_label).get? 1 with
  | none => .error .indexError
  | some s => .ok s

/-- The `CENTERING_DIVISORS` lookup table from `kim_tools/symmetry_util/core.py`. -/
def CENTERING_DIVISORS (centering : Char) : Option Nat :=
  if centering = 'P' then some 1
  else if centering = 'C' then some 2
  else if centering = 'I' then some 2
  else if centering = 'F' then some 4
  else if centering = 'R' then some 3
  else none

/-- Model of `check_number_of_atoms`: derives the conventional-cell atom count
from the digits of the Pearson symbol, triples it for rhombohedral centering,
divides by the centering divisor for a primitive cell and compares with the
number of atoms. -/
def check_number_of_atoms (num_atoms : Nat) (prototype_label : String)
    (primitive_cell : Bool) : Except KimError Unit :=
  match (labelSections prototype_label).get? 1 with
  | none => .error .indexError
  | some pearson =>
    let num_conv_cell₀ :=
      pearson.foldl (fun acc c => if isdigit c then acc * 10 + digitVal c else acc) 0
    match pearson.get? 1 with
    | none => .error .indexError
    | some centering =>
      let num_conv_cell := if centering = 'R' then num_conv_cell₀ * 3 else num_conv_cell₀
      let num_lattice? := if primitive_cell then CENTERING_DIVISORS centering else some 1
      match num_lattice? with
      | none => .error .keyError
      | some num_lattice =>
        if num_conv_cell % num_lattice ≠ 0 then .error .incorrectNumAtomsException
        else if num_atoms ≠ num_conv_cell / num_lattice then
          .error .incorrectNumAtomsException
        else .ok ()

/-- Run-length expansion of one species-Wyckoff section of a prototype label:
the inner loop of `get_wyckoff_lists_from_prototype` over one
`species_wyckoff_string`, carrying the pending `curr_wyckoff_count`.  A letter
is emitted `count` times (an implicit count of zero meaning one), a digit
extends the pending count, and anything else fails the `assert isdigit(char)`.
A pending count left over when the section ends is dropped, exactly as in the
source loop. -/
def expand_wyckoff_section : List Char → Nat → Except KimError (List Char)
  | [], _ => .ok []
  | c :: rest, count =>
    if isalpha c then
      let count1 := if count = 0 then 1 else count
      (expand_wyckoff_section rest 0).map (fun t => List.replicate count1 c ++ t)
    else if isdigit c then
      expand_wyckoff_section rest (count * 10 + digitVal c)
    else .error .assertionError

/-- Model of `get_wyckoff_lists_from_prototype`: run-length expansion of every
section after the third underscore. -/
def get_wyckoff_lists_from_prototype (prototype_label : String) :
    Except KimError (List (List Char)) :=
  ((labelSections prototype_label).drop 3).mapM (fun s => expand_wyckoff_section s 0)

/-- Model of `get_stoich_reduced_list_from_prototype`.  The running value is an
`Option Nat` because the Python accumulator starts as `None`; a digit before
any letter multiplies `None` and raises `TypeError`, and an empty formula
appends the final `None` to the result list unchanged. -/
def stoich_loop : List Char → Option Nat → List (Option Nat) →
    Except KimError (Option Nat × List (Option Nat))
  | [], curr, acc => .ok (curr, acc)
  | c :: rest, curr, acc =>
    if isalpha c then
      match curr with
      | none => stoich_loop rest (some 0) acc
      | some v => stoich_loop rest (some 0) (acc ++ [some (if v = 0 then 1 else v)])
    else if isdigit c then
      match curr with
      | none => .error .typeError
      | some v => stoich_loop rest (some (v * 10 + digitVal c)) acc
    else .error .assertionError

/-- Model of `get_stoich_reduced_list_from_prototype` on the full label. -/
def get_stoich_reduced_list_from_prototype (prototype_label : String) :
    Except KimError (List (Option Nat)) :=
  match (labelSections prototype_label).get? 0 with
  | none => .error .indexError
  | some formula => do
    let (curr, acc) ← stoich_loop formula none []
    match curr with
    | some 0 => .ok (acc ++ [some 1])
    | x => .ok (acc ++ [x])

/-- Model of `split_parameter_array`'s main loop over zipped
`(name, value)` pairs, carrying the `in_internal_part` flag and the two output
lists.  An empty name models Python raising `IndexError` on `name[0]`; a
non-internal name encountered after the flag is set models the failing
`assert`. -/
def split_parameter_loop {α : Type} :
    List (String × α) → Bool → List α → List α →
    Except KimError (List α × List α)
  | [], _, cell_part, internal_part => .ok (cell_part, internal_part)
  | (name, value) :: rest, in_internal_part, cell_part, internal_part =>
    match name.data with
    | [] => .error .indexError
    | c :: _ =>
      if in_internal_part then
        if c = 'x' ∨ c = 'y' ∨ c = 'z' then
          split_parameter_loop rest true cell_part (internal_part ++ [value])
        else .error .assertionError
      else
        if c = 'x' ∨ c = 'y' ∨ c = 'z' then
          split_parameter_loop rest true cell_part (internal_part ++ [value])
        else
          split_parameter_loop rest false (cell_part ++ [value]) internal_part

/-- Model of `split_parameter_array`: checks the length assertion, then splits
the value list at the first internal parameter name (first character `x`, `y`
or `z`). -/
def split_parameter_array {α : Type} (parameter_names : List String)
    (list_to_split : List α) : Except KimError (List α × List α) :=
  if list_to_split.length = parameter_names.length then
    split_parameter_loop (parameter_names.zip list_to_split) false [] []
  else .error .assertionError

/-- Model of `internal_parameter_sort_key`: the leading axis letter must be
`x`, `y` or `z` (otherwise the `assert` fails), the remainder is parsed as the
atom index, and the key is `1000 * number + ord(axis)`. -/
def internal_parameter_sort_key (parameter_name : String) : Except KimError Nat :=
  match parameter_name.data with
  | [] => .error .indexError
  | axis :: rest =>
    if axis = 'x' ∨ axis = 'y' ∨ axis = 'z' then
      (parseNat rest).map (fun number => 1000 * number + axis.toNat)
    else .error .assertionError

/-- Truthiness of an `Option Bool`, modelling how Python treats the value of
`are_in_same_wyckoff_set` (which returns `None` when the first letter is in no
set) in an `if` condition. -/
def truthy : Option Bool → Bool
  | none => false
  | some b => b

/-- Boolean test for an internal parameter name: first character `x`, `y` or
`z` (false for an empty name). -/
def head_internal (name : String) : Bool :=
  match name.data with
  | [] => false
  | c :: _ => c = 'x' ∨ c = 'y' ∨ c = 'z'

/-- The `wyckoff_sets` dict inside `are_in_same_wyckoff_set` in
`kim_tools/symmetry_util/core.py`, transcribed in key order (keys 1 to 230). -/
def wyckoff_sets_list : List (List String) := [
  ["a"],
  ["abcdefgh", "i"],
  ["abcd", "e"],
  ["a"],
  ["ab", "c"],
  ["ab", "c"],
  ["a"],
  ["a", "b"],
  ["a"],
  ["abcdefgh", "ijkl", "mn", "o"],
  ["abcd", "e", "f"],
  ["abcd", "ef", "gh", "i", "j"],
  ["abcd", "ef", "g"],
  ["abcd", "e"],
  ["abcd", "e", "f"],
  ["abcdefgh", "ijklmnopqrst", "u"],
  ["abcd", "e"],
  ["ab", "c"],
  ["a"],
  ["ab", "c"],
  ["abcd", "efgh", "ij", "k", "l"],
  ["abcd", "efghij", "k"],
  ["abcd", "efghij", "k"],
  ["abc", "d"],
  ["abcd", "efgh", "i"],
  ["ab", "c"],
  ["abcd", "e"],
  ["ab", "c", "d"],
  ["a"],
  ["ab", "c"],
  ["a", "b"],
  ["ab", "c"],
  ["a"],
  ["ab", "c"],
  ["ab", "c", "de", "f"],
  ["a", "b"],
  ["ab", "c", "d"],
  ["ab", "c", "de", "f"],
  ["ab", "c", "d"],
  ["a", "b", "c"],
  ["a", "b"],
  ["a", "b", "cd", "e"],
  ["a", "b"],
  ["ab", "cd", "e"],
  ["ab", "c"],
  ["a", "b", "c"],
  ["abcdefgh", "ijklmnopqrst", "uvwxyz", "A"],
  ["abcd", "ef", "ghijkl", "m"],
  ["abcd", "efgh", "ijkl", "mnop", "q", "r"],
  ["abcd", "ef", "ghij", "kl", "m"],
  ["abcd", "ef", "gh", "ij", "k", "l"],
  ["ab", "c", "d", "e"],
  ["abcd", "ef", "g", "h", "i"],
  ["ab", "c", "de", "f"],
  ["abcd", "ef", "gh", "i"],
  ["ab", "cd", "e"],
  ["ab", "c", "d", "e"],
  ["abcd", "ef", "g", "h"],
  ["ab", "cd", "ef", "g"],
  ["ab", "c", "d"],
  ["ab", "c"],
  ["ab", "c", "d"],
  ["ab", "c", "d", "e", "f", "g", "h"],
  ["ab", "c", "d", "e", "f", "g"],
  ["abcd", "ef", "ghij", "kl", "m", "no", "pq", "r"],
  ["ab", "cd", "ef", "gh", "ij", "k", "l", "m"],
  ["ab", "cdef", "g", "hijk", "l", "mn", "o"],
  ["ab", "cd", "ef", "g", "h", "i"],
  ["ab", "cde", "f", "ghi", "jkl", "mno", "p"],
  ["ab", "cd", "efg", "h"],
  ["abcd", "efghij", "k", "lmn", "o"],
  ["ab", "cd", "e", "fg", "hi", "j", "k"],
  ["ab", "cde", "f"],
  ["abcd", "e", "fg", "hi", "j"],
  ["ab", "c", "d"],
  ["a"],
  ["ab", "c", "d"],
  ["a"],
  ["a", "b", "c"],
  ["a", "b"],
  ["abcd", "ef", "g", "h"],
  ["abcd", "ef", "g"],
  ["abcd", "ef", "gh", "i", "jk", "l"],
  ["ab", "cd", "ef", "gh", "i", "j", "k"],
  ["ab", "c", "de", "f", "g"],
  ["ab", "cd", "e", "f", "g"],
  ["ab", "c", "d", "e", "f", "g", "h", "i"],
  ["ab", "cd", "e", "f"],
  ["abcd", "ef", "gh", "i", "jk", "lmno", "p"],
  ["ab", "c", "d", "ef", "g"],
  ["ab", "c", "d"],
  ["a", "b"],
  ["ab", "cd", "ef", "gh", "i", "jklm", "no", "p"],
  ["ab", "c", "d", "ef", "g"],
  ["ab", "c", "d"],
  ["a", "b"],
  ["ab", "c", "d", "e", "f", "g", "hi", "j", "k"],
  ["ab", "c", "de", "f", "g"],
  ["ab", "c", "d", "ef", "g"],
  ["a", "b", "c", "d"],
  ["ab", "c", "d", "e"],
  ["a", "b", "c", "d"],
  ["ab", "c", "d"],
  ["a", "b", "c"],
  ["ab", "c", "de", "f"],
  ["a", "b", "c"],
  ["a", "b", "c", "d", "e"],
  ["a", "b", "c", "d"],
  ["a", "b", "c"],
  ["a", "b"],
  ["abcd", "ef", "gh", "ijkl", "m", "n", "o"],
  ["ac", "ef", "bd", "ghij", "kl", "m", "n"],
  ["ab", "c", "d", "e", "f"],
  ["ab", "c", "d", "e"],
  ["abcd", "ef", "g", "hi", "jk", "l"],
  ["ab", "cd", "ef", "gh", "i", "j"],
  ["ab", "cd", "e", "f", "gh", "i"],
  ["ab", "cd", "e", "fg", "h", "i"],
  ["abcd", "ef", "gh", "i", "j"],
  ["ad", "bc", "eh", "fg", "i"],
  ["ab", "c", "d", "e", "fg", "h", "i", "j"],
  ["ab", "c", "d", "e"],
  ["abcd", "ef", "gh", "i", "jk", "lmno", "pq", "r", "st", "u"],
  ["ac", "bd", "e", "f", "gh", "i", "j", "kl", "m", "n"],
  ["ab", "cd", "ef", "g", "h", "ij", "kl", "m", "n"],
  ["ab", "c", "d", "e", "f", "g", "h", "ij", "k"],
  ["ab", "cd", "e", "f", "gh", "ij", "k", "l"],
  ["ab", "c", "d", "e", "f", "g", "h", "i"],
  ["ab", "c", "de", "f", "gh", "i", "j", "k"],
  ["a", "b", "c", "d", "e", "f", "g"],
  ["ab", "cd", "ef", "gh", "i", "jklm", "n", "op", "q", "r"],
  ["ac", "bd", "e", "f", "gh", "k", "ij", "lm", "n", "o", "p"],
  ["a", "b", "c", "d", "e", "f", "g", "hi", "j", "k"],
  ["ab", "c", "d", "ef", "g", "h", "ij", "kl", "m", "n"],
  ["a", "b", "c", "d", "e", "f", "g", "h", "i"],
  ["ab", "c", "d", "e", "fg", "h", "i", "j", "k"],
  ["ab", "c", "d", "e", "f", "g", "h"],
  ["a", "b", "cd", "e", "f", "gh", "i", "j"],
  ["ab", "c", "d", "e", "f", "g", "h", "ij", "k", "l", "m", "n", "o"],
  ["a", "b", "c", "d", "e", "f", "g", "h", "i", "j", "k", "l", "m"],
  ["ab", "cd", "e", "f", "g", "h", "i"],
  ["a", "b", "c", "d", "e", "f", "g"],
  ["abc", "d"],
  ["a"],
  ["a"],
  ["a", "b"],
  ["ab", "c", "d", "ef", "g"],
  ["ab", "c", "de", "f"],
  ["abcdef", "ghi", "jk", "l"],
  ["ab", "c", "d", "ef", "g"],
  ["ab", "c"],
  ["ab", "c"],
  ["ab", "c"],
  ["ab", "c"],
  ["ab", "c", "de", "f"],
  ["abc", "d", "e"],
  ["a", "b", "c", "d"],
  ["abc", "d"],
  ["a", "b", "c"],
  ["a", "b", "c"],
  ["a", "b"],
  ["ab", "cd", "e", "fg", "h", "ij", "k", "l"],
  ["a", "b", "cd", "e", "f", "g", "h", "i"],
  ["ab", "c", "d", "ef", "gh", "i", "j"],
  ["a", "b", "c", "d", "e", "f", "g"],
  ["ab", "c", "de", "fg", "h", "i"],
  ["a", "b", "c", "d", "e", "f"],
  ["a", "b", "c", "d"],
  ["a"],
  ["a"],
  ["a", "b", "c"],
  ["a", "b", "c"],
  ["a", "b", "c"],
  ["abcdef", "ghi", "jk", "l"],
  ["ab", "cd", "e", "fg", "h", "i", "jk", "l"],
  ["a", "b", "cd", "e", "f", "g", "h", "i"],
  ["ab", "cd", "e", "fg", "h", "i", "jk", "lm", "n"],
  ["a", "b", "c"],
  ["a", "b", "c"],
  ["ab", "cd", "e", "f", "gh", "ij", "k"],
  ["ab", "cd", "e", "f", "gh", "ij", "k"],
  ["a", "b", "cd", "e", "f", "g", "h", "i"],
  ["a", "b", "c", "d", "e", "f"],
  ["a", "b", "c", "d"],
  ["a", "b", "c", "d"],
  ["a", "b", "c", "d"],
  ["abcdef", "ghi", "jk", "lm", "n", "o"],
  ["ace", "bdf", "ghi", "j", "k", "l"],
  ["ab", "cd", "e", "fg", "h", "i", "jk", "l"],
  ["a", "b", "cd", "e", "f", "g", "h", "i"],
  ["ab", "cd", "e", "fg", "h", "i", "jk", "lm", "n", "o", "pq", "r"],
  ["a", "b", "c", "d", "e", "f", "g", "h", "i", "j", "k", "l", "m"],
  ["a", "b", "c", "d", "e", "f", "g", "h", "i", "j", "k", "l"],
  ["a", "b", "cd", "e", "f", "g", "h", "i", "j", "k", "l"],
  ["ab", "cd", "e", "fi", "gh", "j"],
  ["abcd", "e", "fg", "h"],
  ["a", "b", "c", "d", "e", "f"],
  ["a", "b"],
  ["a", "b", "c"],
  ["ab", "cd", "eh", "fg", "i", "jk", "l"],
  ["a", "bc", "d", "e", "f", "g", "h"],
  ["ab", "c", "d", "e", "f", "g", "h", "i"],
  ["ab", "cd", "e", "f", "g"],
  ["a", "b", "c", "d", "e", "f", "g", "h"],
  ["ab", "c", "d"],
  ["ab", "c", "d", "e"],
  ["ab", "cd", "ef", "g", "h", "ij", "k"],
  ["a", "bc", "d", "ef", "g", "h", "ij", "kl", "m"],
  ["ab", "c", "d", "e", "f", "gh", "i", "j"],
  ["ab", "cd", "e", "f", "g", "h"],
  ["a", "b", "c", "d", "e", "f", "g", "h", "i", "j"],
  ["ab", "c", "d", "e"],
  ["ab", "c", "d", "e"],
  ["ab", "cd", "e", "f", "gh", "i"],
  ["ab", "cd", "e", "fg", "h", "i", "j"],
  ["abcd", "e", "fg", "h", "i"],
  ["a", "b", "c", "d", "e", "f", "g", "h"],
  ["a", "b", "cd", "e", "f", "gh", "i"],
  ["ab", "cd", "e", "fg", "h"],
  ["ab", "c", "d", "e"],
  ["ab", "cd", "ef", "g", "h", "ij", "kl", "m", "n"],
  ["a", "b", "c", "d", "e", "f", "g", "h", "i"],
  ["a", "b", "cd", "e", "f", "gh", "i", "j", "k", "l"],
  ["a", "bc", "d", "e", "f", "g", "h", "ij", "k", "l"],
  ["ab", "c", "d", "e", "f", "g", "hi", "j", "k", "l"],
  ["a", "b", "c", "d", "e", "f", "g", "h", "i", "j"],
  ["ab", "cd", "e", "f", "g", "h", "i"],
  ["a", "b", "c", "d", "e", "f", "g", "h"],
  ["a", "b", "c", "d", "e", "f", "g", "h", "i", "j", "k", "l"],
  ["a", "b", "c", "d", "e", "f", "g", "h"]]

/-- Lookup in the `wyckoff_sets` dict; `none` models a `KeyError` for a
space-group number outside 1 to 230. -/
def wyckoff_sets_table (space_group_number : Nat) : Option (List String) :=
  if 1 ≤ space_group_number ∧ space_group_number ≤ 230 then
    wyckoff_sets_list.get? (space_group_number - 1)
  else none

/-- First part of `are_in_same_wyckoff_set`: scan the Wyckoff sets for the one
containing `letter_1`; if found, report whether `letter_2` is in the same set;
if `letter_1` is in no set the Python function falls off the loop and returns
`None`. -/
def find_letter_in_sets (letter_1 letter_2 : Char) : List String → Option Bool
  | [] => none
  | s :: rest =>
    if letter_1 ∈ s.data then some (decide (letter_2 ∈ s.data))
    else find_letter_in_sets letter_1 letter_2 rest

/-- Model of `are_in_same_wyckoff_set` from `kim_tools/symmetry_util/core.py`;
a space-group number outside the table raises `KeyError`. -/
def are_in_same_wyckoff_set (letter_1 letter_2 : Char) (space_group_number : Nat) :
    Except KimError (Option Bool) :=
  match wyckoff_sets_table space_group_number with
  | none => .error .keyError
  | some sets => .ok (find_letter_in_sets letter_1 letter_2 sets)

/-- The enantiomorph conversion table of `space_group_numbers_are_enantiomorphic`
(both directions of the dict, as built in the source). -/
def enantiomorph_conversion (sg : Nat) : Option Nat :=
  match sg with
  | 78 => some 76 | 95 => some 91 | 96 => some 92 | 145 => some 144
  | 153 => some 151 | 154 => some 152 | 170 => some 169 | 172 => some 171
  | 179 => some 178 | 181 => some 180 | 213 => some 212
  | 76 => some 78 | 91 => some 95 | 92 => some 96 | 144 => some 145
  | 151 => some 153 | 152 => some 154 | 169 => some 170 | 171 => some 172
  | 178 => some 179 | 180 => some 181 | 212 => some 213
  | _ => none

/-- Model of `space_group_numbers_are_enantiomorphic`; a number missing from
the conversion dict raises `KeyError`. -/
def space_group_numbers_are_enantiomorphic (sg_1 sg_2 : Nat) : Except KimError Bool :=
  if sg_1 = sg_2 then .ok true
  else
    match enantiomorph_conversion sg_1 with
    | none => .error .keyError
    | some v => .ok (v = sg_2)

/-- A fractional or Cartesian coordinate triple (floats modelled by rationals). -/
abbrev Vec3 := ℚ × ℚ × ℚ

/-- Componentwise sum of coordinate triples. -/
def v3add (a b : Vec3) : Vec3 := (a.1 + b.1, a.2.1 + b.2.1, a.2.2 + b.2.2)

/-- Componentwise difference of coordinate triples. -/
def v3sub (a b : Vec3) : Vec3 := (a.1 - b.1, a.2.1 - b.2.1, a.2.2 - b.2.2)

/-- Componentwise negation of a coordinate triple. -/
def v3neg (a : Vec3) : Vec3 := (-a.1, -a.2.1, -a.2.2)

/-- Python `v % 1` on a scalar coordinate: the fractional part, in `[0, 1)`
(the floor is computed by flooring integer division of numerator by
denominator). -/
def qmod1 (q : ℚ) : ℚ := q - (Int.fdiv q.num q.den : ℚ)

/-- Componentwise fractional part, used for wrapping scaled coordinates. -/
def fract3 (v : Vec3) : Vec3 := (qmod1 v.1, qmod1 v.2.1, qmod1 v.2.2)

/-- The symmetry dataset produced by the external spglib call
(`check_symmetry`): detected space-group number, per-atom Wyckoff letters and
per-atom crystallographic orbit representatives. -/
structure SpglibDataset where
  number : Nat
  wyckoffs : List Char
  crystallographic_orbits : List Nat
  deriving DecidableEq, Repr

/-- An ASE `Atoms` object: per-atom chemical symbols, per-atom Cartesian
positions, and the cell held abstractly as the pair of coordinate maps it
induces (`fracOf` from Cartesian to scaled coordinates, `cartOf` back). -/
structure AtomsData where
  symbols : List String
  positions : List Vec3
  fracOf : Vec3 → Vec3
  cartOf : Vec3 → Vec3

/-- The default `AtomsData` used when a store reference is dangling. -/
def default_atoms : AtomsData := ⟨[], [], id, id⟩

/-- Python `len(atoms)`. -/
def atoms_len (a : AtomsData) : Nat := a.symbols.length

/-- ASE `atoms.get_scaled_positions()` (which wraps into the cell by default). -/
def get_scaled_positions (a : AtomsData) : List Vec3 :=
  a.positions.map (fun p => fract3 (a.fracOf p))

/-- ASE `atoms.translate(v)`: displace every Cartesian position by `v`. -/
def translate (a : AtomsData) (v : Vec3) : AtomsData :=
  { a with positions := a.positions.map (fun p => v3add p v) }

/-- ASE `atoms.wrap()`: wrap every position back into the cell. -/
def wrap (a : AtomsData) : AtomsData :=
  { a with positions := a.positions.map (fun p => a.cartOf (fract3 (a.fracOf p))) }

/-- The `EquivalentAtomSet` dataclass. -/
structure EquivalentAtomSet where
  species : String
  wyckoff_letter : Char
  frac_position_list : List Vec3
  deriving DecidableEq, Repr

/-- A coefficient matrix of an equation set (3 x n, row major); it is only ever
passed to the least-squares oracle, so its shape is not constrained here. -/
abbrev CoeffMat := List (List ℚ)

/-- The `EquivalentEqnSet` dataclass. -/
structure EquivalentEqnSet where
  species : String
  wyckoff_letter : Char
  param_names : List String
  coeff_matrix_list : List CoeffMat
  const_terms_list : List Vec3
  deriving DecidableEq, Repr

/-- Lexicographic comparison of character lists by code point, modelling
Python string comparison. -/
def chars_le : List Char → List Char → Bool
  | [], _ => true
  | _ :: _, [] => false
  | a :: as, b :: bs => if a < b then true else if b < a then false else chars_le as bs

/-- Python string comparison `a <= b` (lexicographic by code point). -/
def string_py_le (a b : String) : Prop := chars_le a.data b.data = true

instance : DecidableRel string_py_le :=
  fun a b => inferInstanceAs (Decidable (chars_le a.data b.data = true))

/-- Letter comparison used by the first (stable) sort in
`group_positions_by_wyckoff`. -/
def letterLe (x y : EquivalentAtomSet) : Prop := x.wyckoff_letter ≤ y.wyckoff_letter

instance : DecidableRel letterLe :=
  fun x y => inferInstanceAs (Decidable (x.wyckoff_letter ≤ y.wyckoff_letter))

/-- Species comparison used by the second (stable) sort in
`group_positions_by_wyckoff`. -/
def speciesLe (x y : EquivalentAtomSet) : Prop := string_py_le x.species y.species

instance : DecidableRel speciesLe :=
  fun x y => inferInstanceAs (Decidable (string_py_le x.species y.species))

/-- Construction of the equivalent-atom sets from the spglib dataset: one set
per entry of `sorted(set(ds.crystallographic_orbits))`, holding the species and
Wyckoff letter of the representative atom and the scaled positions of every
atom in the orbit (an orbit index out of range models Python `IndexError`). -/
def build_equivalent_atom_sets (a : AtomsData) (ds : SpglibDataset) :
    Except KimError (List EquivalentAtomSet) :=
  let idxs := List.insertionSort (· ≤ ·) ds.crystallographic_orbits.dedup
  idxs.mapM (fun idx =>
    match a.symbols.get? idx, ds.wyckoffs.get? idx with
    | some sp, some w =>
      .ok ⟨sp, w,
        ((get_scaled_positions a).zip ds.crystallographic_orbits).filterMap
          (fun pr => if pr.2 = idx then some pr.1 else none)⟩
    | _, _ => .error .indexError)

/-- The two stable in-place sorts of `group_positions_by_wyckoff`: by Wyckoff
letter first, then by species. -/
def sort_equivalent_atom_sets (l : List EquivalentAtomSet) : List EquivalentAtomSet :=
  List.insertionSort speciesLe (List.insertionSort letterLe l)

/-- The letter-by-letter consistency loop of `group_positions_by_wyckoff`: each
pair is a label letter with the corresponding detected letter, in canonical
order; a pair not in the same Wyckoff set raises
`inconsistentWyckoffException` (a mere shuffle within a set is only logged). -/
def check_letter_pairs (sg : Nat) : List (Char × Char) → Except KimError Unit
  | [] => .ok ()
  | (label_letter, detected_letter) :: rest =>
    match are_in_same_wyckoff_set detected_letter label_letter sg with
    | .error e => .error e
    | .ok r =>
      if ¬ truthy r then .error .inconsistentWyckoffException
      else check_letter_pairs sg rest

/-- The consistency checks of `group_positions_by_wyckoff` performed when a
prototype label is supplied: space-group number, species count, inequivalent
atom count, and Wyckoff-set membership of every letter pair. -/
def label_consistency_checks (prototype_label : String) (detected_number : Nat)
    (num_species : Nat) (sets : List EquivalentAtomSet) : Except KimError Unit :=
  match get_space_group_number_from_prototype prototype_label with
  | .error e => .error e
  | .ok space_group_number =>
    if detected_number ≠ space_group_number then .error .incorrectSpaceGroupException
    else
      match get_wyckoff_lists_from_prototype prototype_label with
      | .error e => .error e
      | .ok wyckoff_lists =>
        if wyckoff_lists.length ≠ num_species then .error .incorrectNumSpeciesException
        else
          let wyckoff_lists_concatenated := wyckoff_lists.flatten
          if wyckoff_lists_concatenated.length ≠ sets.length then
            .error .inconsistentWyckoffException
          else
            check_letter_pairs space_group_number
              (wyckoff_lists_concatenated.zip (sets.map (fun s => s.wyckoff_letter)))

/-- Model of `group_positions_by_wyckoff`, with the external spglib call
supplied as an oracle (`none` models both an exception inside `check_symmetry`
and a `None` dataset, which the source turns into
`spglibFailureException`). -/
def group_positions_by_wyckoff (spglib : AtomsData → Option SpglibDataset)
    (atoms : AtomsData) (prototype_label : Option String) :
    Except KimError (List EquivalentAtomSet) :=
  match (match prototype_label with
         | some lbl => check_number_of_atoms (atoms_len atoms) lbl true
         | none => .ok ()) with
  | .error e => .error e
  | .ok _ =>
    match spglib atoms with
    | none => .error .spglibFailureException
    | some ds =>
      match build_equivalent_atom_sets atoms ds with
      | .error e => .error e
      | .ok sets₀ =>
        match prototype_label with
        | some lbl =>
          match label_consistency_checks lbl ds.number atoms.symbols.dedup.length
            (sort_equivalent_atom_sets sets₀) with
          | .error e => .error e
          | .ok _ => .ok (sort_equivalent_atom_sets sets₀)
        | none => .ok (sort_equivalent_atom_sets sets₀)

/-- The per-pair letter loop of `prototype_labels_are_equivalent` for triclinic
and monoclinic groups: returns `false` on the first pair of corresponding
letters not in the same Wyckoff set. -/
def wyckoff_pair_loop (sg : Nat) : List (Char × Char) → Except KimError Bool
  | [] => .ok true
  | (letter_1, letter_2) :: rest => do
    let r ← are_in_same_wyckoff_set letter_1 letter_2 sg
    if ¬ truthy r then .ok false else wyckoff_pair_loop sg rest

/-- The per-species loop of `prototype_labels_are_equivalent` over zipped
Wyckoff lists, with the per-pair length `assert` of the source. -/
def wyckoff_lists_loop (sg : Nat) : List (List Char × List Char) → Except KimError Bool
  | [] => .ok true
  | (w1, w2) :: rest =>
    if w1.length ≠ w2.length then .error .assertionError
    else do
      let b ← wyckoff_pair_loop sg (w1.zip w2)
      if ¬ b then .ok false else wyckoff_lists_loop sg rest

/-- Model of `prototype_labels_are_equivalent`: compares reduced
stoichiometries, Pearson symbols and space groups, then Wyckoff letter lists
(literal equality above space group 16, Wyckoff-set equivalence below). -/
def prototype_labels_are_equivalent (prototype_label_1 prototype_label_2 : String)
    (allow_enantiomorph allow_species_permutation : Bool) : Except KimError Bool :=
  if allow_species_permutation then .error .notImplementedError
  else do
    let s1 ← get_stoich_reduced_list_from_prototype prototype_label_1
    let s2 ← get_stoich_reduced_list_from_prototype prototype_label_2
    if s1 ≠ s2 then .ok false
    else do
      let p1 ← get_pearson_symbol_from_prototype prototype_label_1
      let p2 ← get_pearson_symbol_from_prototype prototype_label_2
      if p1 ≠ p2 then .ok false
      else do
        let sg_num_1 ← get_space_group_number_from_prototype prototype_label_1
        let sg_num_2 ← get_space_group_number_from_prototype prototype_label_2
        let sg_gate ←
          if allow_enantiomorph then do
            let e ← space_group_numbers_are_enantiomorphic sg_num_2 sg_num_1
            if ¬ e then pure false
            else if sg_num_2 ≠ sg_num_1 then pure false else pure true
          else if sg_num_2 ≠ sg_num_1 then pure false else pure true
        if ¬ sg_gate then .ok false
        else do
          let wyckoff_lists_1 ← get_wyckoff_lists_from_prototype prototype_label_1
          let wyckoff_lists_2 ← get_wyckoff_lists_from_prototype prototype_label_2
          if wyckoff_lists_1.length ≠ wyckoff_lists_2.length then .error .assertionError
          else if 16 < sg_num_1 then
            if wyckoff_lists_1 ≠ wyckoff_lists_2 then .ok false else .ok true
          else do
            let b ← wyckoff_lists_loop sg_num_1 (wyckoff_lists_1.zip wyckoff_lists_2)
            if ¬ b then .ok false else .ok true

/-- Model of `get_real_to_virtual_species_map` applied to an `Atoms` object:
the alphabetized distinct species are mapped to virtual species
`chr(65 + i)`, i.e. uppercase letters starting from `A`. -/
def get_real_to_virtual_species_map (symbols : List String) : List (String × String) :=
  (List.insertionSort string_py_le symbols.dedup).enum.map
    (fun p => (p.2, (Char.ofNat (65 + p.1)).toString))

/-- The heap of `Atoms` objects alive during one resolution attempt; Python
object identity is a list index. -/
abbrev Store := List AtomsData

/-- Dereference a store reference (dangling references yield a default). -/
def store_get (σ : Store) (r : Nat) : AtomsData := (σ.get? r).getD default_atoms

/-- In-place mutation of the object at a reference. -/
def store_update (σ : Store) (r : Nat) (f : AtomsData → AtomsData) : Store :=
  σ.set r (f (store_get σ r))

/-- The external calls made by `solve_for_internal_params` and the routines it
invokes, supplied as oracles: the aflow prototype redetection, the raw
structure rebuilt by `aflow --proto`, the origin shift found by structure
comparison (`none` when aflow fails to match), the internal Cartesian
translations of the space group, the spglib dataset for a given structure, and
the numpy `lstsq` call returning a solution vector and residual list. -/
structure SolverOracles where
  detected_label : String
  detected_params : List ℚ
  rebuilt_raw : AtomsData
  origin_shift : Option Vec3
  internal_cartesian_translations : List Vec3
  spglib : AtomsData → Option SpglibDataset
  lstsq : CoeffMat → Vec3 → List ℚ × List ℚ

/-- Model of `build_atoms_from_prototype`: the structure produced by
`aflow --proto` (an oracle input) is checked against the label's Pearson
symbol and wrapped. -/
def build_atoms_from_prototype (raw : AtomsData) (prototype_label : String) :
    Except KimError AtomsData :=
  match check_number_of_atoms (atoms_len raw) prototype_label true with
  | .error e => .error e
  | .ok _ => .ok (wrap raw)

/-- The 27 integer coordinate shifts `{-1,0,1}^3` explored to resolve the
periodic wrap, in the order of the source's list comprehension. -/
def possible_shift_vectors : List Vec3 :=
  ([-1, 0, 1] : List ℚ).flatMap (fun x =>
    ([-1, 0, 1] : List ℚ).flatMap (fun y =>
      ([-1, 0, 1] : List ℚ).map (fun z => (x, y, z))))

/-- Acceptance test on the residual list returned by `np.linalg.lstsq`:
`len(resid) == 0 or np.max(resid) < max_resid`. -/
def resid_accepts (resid : List ℚ) (max_resid : ℚ) : Bool :=
  match resid with
  | [] => true
  | r :: rs => decide (rs.foldl max r < max_resid)

/-- The innermost loop of the solver: try the 27 periodic shifts on one
(equation, position) pair and return the first accepted least-squares
solution. -/
def try_shifts (lstsq : CoeffMat → Vec3 → List ℚ × List ℚ) (max_resid : ℚ)
    (coeff_matrix : CoeffMat) (const_terms : Vec3) (frac_position : Vec3) :
    Option (List ℚ) :=
  possible_shift_vectors.findSome? (fun shift =>
    let r := lstsq coeff_matrix (v3sub (v3sub frac_position const_terms) shift)
    if resid_accepts r.2 max_resid then some r.1 else none)

/-- The two middle loops of the solver: over the equations of an equation set
and the positions of a position set, returning the first accepted solution. -/
def first_accepted_solve (lstsq : CoeffMat → Vec3 → List ℚ × List ℚ)
    (max_resid : ℚ) (equation_set : EquivalentEqnSet)
    (position_set : EquivalentAtomSet) : Option (List ℚ) :=
  (equation_set.coeff_matrix_list.zip equation_set.const_terms_list).findSome?
    (fun mc => position_set.frac_position_list.findSome?
      (fun pos => try_shifts lstsq max_resid mc.1 mc.2 pos))

/-- Recording the solved parameter values into `free_params_dict`: each value
is wrapped by `% 1` and a repeated name fails the `assert`. -/
def record_params_loop : List (String × ℚ) → List (String × ℚ) →
    Except KimError (List (String × ℚ))
  | [], d => .ok d
  | (n, v) :: rest, d =>
    if (d.lookup n).isSome then .error .assertionError
    else record_params_loop rest (d ++ [(n, qmod1 v)])

/-- Model of the dict-update block after an accepted solve, including the
length `assert` between solution and parameter names. -/
def record_params (param_names : List String) (vals : List ℚ)
    (d : List (String × ℚ)) : Except KimError (List (String × ℚ)) :=
  if vals.length = param_names.length then record_params_loop (param_names.zip vals) d
  else .error .assertionError

/-- The solver's scan of one equation set over the not-yet-matched position
sets: skip consumed sets, species-incompatible sets (a species missing from
the map models `KeyError`) and Wyckoff-set-incompatible sets; on the first
accepted solve, record the parameters and mark the position set consumed. -/
def match_one_equation_set (lstsq : CoeffMat → Vec3 → List ℚ × List ℚ)
    (max_resid : ℚ) (sg : Nat) (species_map : List (String × String))
    (equation_set : EquivalentEqnSet) :
    List (EquivalentAtomSet × Bool) → List (String × ℚ) →
    Except KimError (List (EquivalentAtomSet × Bool) × List (String × ℚ) × Bool)
  | [], d => .ok ([], d, false)
  | (position_set, flag) :: rest, d =>
    if flag then
      match match_one_equation_set lstsq max_resid sg species_map equation_set rest d with
      | .error e => .error e
      | .ok (rest', d', m) => .ok ((position_set, flag) :: rest', d', m)
    else
      match species_map.lookup position_set.species with
      | none => .error .keyError
      | some virt =>
        if virt ≠ equation_set.species then
          match match_one_equation_set lstsq max_resid sg species_map equation_set rest d with
          | .error e => .error e
          | .ok (rest', d', m) => .ok ((position_set, flag) :: rest', d', m)
        else
          match are_in_same_wyckoff_set equation_set.wyckoff_letter
            position_set.wyckoff_letter sg with
          | .error e => .error e
          | .ok r =>
            if ¬ truthy r then
              match match_one_equation_set lstsq max_resid sg species_map equation_set rest d with
              | .error e => .error e
              | .ok (rest', d', m) => .ok ((position_set, flag) :: rest', d', m)
            else
              match first_accepted_solve lstsq max_resid equation_set position_set with
              | none =>
                match match_one_equation_set lstsq max_resid sg species_map equation_set rest d with
                | .error e => .error e
                | .ok (rest', d', m) => .ok ((position_set, flag) :: rest', d', m)
              | some sol =>
                match record_params equation_set.param_names sol d with
                | .error e => .error e
                | .ok d' => .ok ((position_set, true) :: rest, d', true)

/-- The solver's loop over all equation sets, threading the consumed flags and
the free-parameter dict. -/
def match_all_equation_sets (lstsq : CoeffMat → Vec3 → List ℚ × List ℚ)
    (max_resid : ℚ) (sg : Nat) (species_map : List (String × String)) :
    List EquivalentEqnSet → List (EquivalentAtomSet × Bool) → List (String × ℚ) →
    Except KimError (List (EquivalentAtomSet × Bool) × List (String × ℚ))
  | [], position_sets, d => .ok (position_sets, d)
  | equation_set :: rest, position_sets, d =>
    match match_one_equation_set lstsq max_resid sg species_map equation_set
      position_sets d with
    | .error e => .error e
    | .ok (position_sets', d', _) =>
      match_all_equation_sets lstsq max_resid sg species_map rest position_sets' d'

/-- Comparison of keyed parameter names by `internal_parameter_sort_key`
value. -/
def keyPairLe (a b : Nat × String) : Prop := a.1 ≤ b.1

instance : DecidableRel keyPairLe :=
  fun a b => inferInstanceAs (Decidable (a.1 ≤ b.1))

/-- Computation of `internal_parameter_sort_key` for every dict key in order,
propagating the key function's exceptions as Python `sorted` does. -/
def compute_keys : List (String × ℚ) → Except KimError (List (Nat × String))
  | [] => .ok []
  | p :: rest =>
    match internal_parameter_sort_key p.1 with
    | .error e => .error e
    | .ok k =>
      match compute_keys rest with
      | .error e => .error e
      | .ok ks => .ok ((k, p.1) :: ks)

/-- Model of the solver's return expression
`[free_params_dict[key] for key in sorted(free_params_dict.keys(), key=internal_parameter_sort_key)]`:
compute every key (propagating its exceptions), sort stably by key, and read
the dict back in that order. -/
def assemble_return (d : List (String × ℚ)) : Except KimError (List ℚ) :=
  match compute_keys d with
  | .error e => .error e
  | .ok keyed =>
    let sorted_keys := List.insertionSort keyPairLe keyed
    .ok (sorted_keys.map (fun kn => ((d.lookup kn.2).getD 0)))

/-- The shift-search loop of `solve_for_internal_params` (source lines
1215-1269): each candidate internal translation is applied cumulatively to the
`atoms_shifted` object held in the store at reference `r`, the structure is
wrapped, orbits are re-extracted against the nominal label (any exception
propagates), and orbit matching is attempted; when every position set is
matched the sorted parameter values are returned, and when the translations
are exhausted the result is `none`. -/
def shift_search_loop (lstsq : CoeffMat → Vec3 → List ℚ × List ℚ)
    (spglib : AtomsData → Option SpglibDataset) (max_resid : ℚ)
    (nominal_prototype_label : String) (equation_set_list : List EquivalentEqnSet)
    (r : Nat) :
    List Vec3 → Store → Store × Except KimError (Option (List ℚ))
  | [], σ => (σ, .ok none)
  | internal_translation :: rest, σ =>
    let σ₁ := store_update σ r (fun a => translate a internal_translation)
    let σ₂ := store_update σ₁ r wrap
    let atoms_shifted := store_get σ₂ r
    match group_positions_by_wyckoff spglib atoms_shifted
      (some nominal_prototype_label) with
    | .error e => (σ₂, .error e)
    | .ok position_set_list =>
      let species_map := get_real_to_virtual_species_map atoms_shifted.symbols
      if position_set_list.length ≠ equation_set_list.length then
        (σ₂, .error .inconsistentWyckoffException)
      else
        match get_space_group_number_from_prototype nominal_prototype_label with
        | .error e => (σ₂, .error e)
        | .ok sg =>
          match match_all_equation_sets lstsq max_resid sg species_map
            equation_set_list (position_set_list.map (fun p => (p, false))) [] with
          | .error e => (σ₂, .error e)
          | .ok (flags, d) =>
            if flags.all (fun p => p.2) then
              match assemble_return d with
              | .error e => (σ₂, .error e)
              | .ok vals => (σ₂, .ok (some vals))
            else
              shift_search_loop lstsq spglib max_resid nominal_prototype_label
                equation_set_list r rest σ₂

/-- Model of `AFLOW.solve_for_internal_params`: redetect the prototype (oracle),
rebuild the canonical structure, silently return `None` when the redetected
label is not equivalent to the nominal one, fail when aflow cannot match the
two structures, otherwise copy the input `Atoms` object, apply the negated
origin shift to the copy, and run the shift search.  The input object lives in
the store at `atoms_ref`; the copy is a freshly allocated object. -/
def solve_for_internal_params (O : SolverOracles) (σ : Store) (atoms_ref : Nat)
    (equation_set_list : List EquivalentEqnSet)
    (nominal_prototype_label : String) (max_resid : ℚ) :
    Store × Except KimError (Option (List ℚ)) :=
  let atoms := store_get σ atoms_ref
  match build_atoms_from_prototype O.rebuilt_raw O.detected_label with
  | .error e => (σ, .error e)
  | .ok _atoms_rebuilt =>
    match prototype_labels_are_equivalent nominal_prototype_label
      O.detected_label false false with
    | .error e => (σ, .error e)
    | .ok eqv =>
      if ¬ eqv then (σ, .ok none)
      else
        match O.origin_shift with
        | none => (σ, .error .failedToMatchException)
        | some origin_shift =>
          let σ₁ := σ ++ [atoms]
          let r := σ.length
          let σ₂ := store_update σ₁ r (fun a => translate a (v3neg origin_shift))
          shift_search_loop O.lstsq O.spglib max_resid nominal_prototype_label
            equation_set_list r O.internal_cartesian_translations σ₂

/-- The lexicographic comparison of two orbits: species not later, and among
equal species the letter not later. -/
def atom_set_lex_le (x y : EquivalentAtomSet) : Prop :=
  string_py_le x.species y.species ∧
    (x.species = y.species → x.wyckoff_letter ≤ y.wyckoff_letter)

/-- The canonical ordering of extracted orbits: by species alphabetically,
then by detected Wyckoff letter alphabetically. -/
def atom_sets_canonically_sorted (l : List EquivalentAtomSet) : Prop :=
  List.Pairwise atom_set_lex_le l

instance : IsTotal EquivalentAtomSet letterLe :=
  ⟨fun a b => le_total a.wyckoff_letter b.wyckoff_letter⟩

instance : IsTrans EquivalentAtomSet letterLe :=
  ⟨fun _ _ _ h₁ h₂ => le_trans h₁ h₂⟩

instance : IsTotal (Nat × String) keyPairLe :=
  ⟨fun a b => Nat.le_total a.1 b.1⟩

instance : IsTrans (Nat × String) keyPairLe :=
  ⟨fun _ _ _ h₁ h₂ => Nat.le_trans h₁ h₂⟩

/-- Existence of a label letter and corresponding detected letter (in
canonical order) that are not in the same Wyckoff set. -/
def wyckoff_pair_violation (label_letters detected_letters : List Char)
    (sg : Nat) : Prop :=
  ∃ p ∈ label_letters.zip detected_letters,
    are_in_same_wyckoff_set p.2 p.1 sg ≠ .ok (some true)

/-- A dict whose every value has been wrapped by `% 1`. -/
def dict_values_wrapped (d : List (String × ℚ)) : Prop :=
  ∀ p ∈ d, ∃ q : ℚ, p.2 = qmod1 q

/-- A one-atom structure used in concrete solver runs for claim C2. -/
def c2_atoms : AtomsData := ⟨["Al"], [(0, 0, 0)], id, id⟩

/-- Oracles for the C2 counterexample: aflow redetects the prototype of the
structure as `A_cF4_221_a`, space group 221, while the nominal label passed to
the solver names space group 225. -/
def c2_oracles : SolverOracles :=
  ⟨"A_cF4_221_a", [], c2_atoms, some (0, 0, 0), [(0, 0, 0)],
    fun _ => none, fun _ _ => ([], [])⟩

/-- A one-atom structure used in concrete solver runs for claim C3. -/
def c3_atoms : AtomsData := ⟨["Al"], [(0, 0, 0)], id, id⟩

/-- Oracles for the C3 counterexample: the redetected label matches the
nominal one, two internal translations are available, and spglib assigns the
orbit Wyckoff letter `c`, which is not in the same set as the label's `a` in
space group 225, so orbit re-extraction is inconsistent at the first shift. -/
def c3_oracles : SolverOracles :=
  ⟨"A_cF4_225_a", [], c3_atoms, some (0, 0, 0), [(0, 0, 0), (0, 0, 0)],
    fun _ => some ⟨225, ['c'], [0]⟩, fun _ _ => ([], [])⟩

/-- A two-atom structure used in the C4 counterexample. -/
def c4_atoms : AtomsData := ⟨["Al", "Al"], [(0, 0, 0), (1/2, 1/2, 1/2)], id, id⟩

/-- The spglib oracle for the C4 counterexample: both atoms are put in a
single orbit with letter `a`, while the label `A_cF8_225_ab` declares two
inequivalent atoms. -/
def c4_spglib : AtomsData → Option SpglibDataset := fun _ => some ⟨225, ['a', 'a'], [0, 0]⟩

/-- A one-atom structure used in the C4 witness (Wyckoff shuffle accepted). -/
def c4w_atoms : AtomsData := ⟨["H"], [(0, 0, 0)], id, id⟩

/-- A one-atom structure used in the C5 witness. -/
def c5_atoms : AtomsData := ⟨["H"], [(0, 0, 0)], id, id⟩

/-- The single equation set of the C5 witness: the general position of space
group 1 with free parameters `x1`, `y1`, `z1` and identity coefficients. -/
def c5_eqset : EquivalentEqnSet :=
  ⟨"A", 'a', ["x1", "y1", "z1"], [[[1, 0, 0], [0, 1, 0], [0, 0, 1]]], [(0, 0, 0)]⟩

/-- Oracles for the C5 witness: everything consistent with label `A_aP1_1_a`
and a least-squares oracle returning the exact solution with empty residual. -/
def c5_oracles : SolverOracles :=
  ⟨"A_aP1_1_a", [], c5_atoms, some (0, 0, 0), [(0, 0, 0)],
    fun _ => some ⟨1, ['a'], [0]⟩, fun _ _ => ([1/2, 1/3, 1/4], [])⟩

/-- A two-species structure used in the C6 witness. -/
def c6_atoms : AtomsData := ⟨["B", "Al"], [(0, 0, 0), (1/2, 1/2, 1/2)], id, id⟩

/-- Expansion of a section that contains only letters reproduces it
unchanged. -/
theorem expand_of_all_alpha (s : List Char) (h : ∀ c ∈ s, isalpha c = true) :
    expand_wyckoff_section s 0 = .ok s := by
  induction s with
  | nil => rfl
  | cons c rest ih =>
    have hc : isalpha c = true := h c (by simp)
    have hrest : expand_wyckoff_section rest 0 = .ok rest :=
      ih (fun d hd => h d (by simp [hd]))
    simp [expand_wyckoff_section, Except.map, hc, hrest]

/-- Expansion of a section of letters and digits never fails, whatever the
pending count. -/
theorem expand_ok_of_alnum (s : List Char) : ∀ count : Nat,
    (∀ c ∈ s, isalpha c = true ∨ isdigit c = true) →
    ∃ t, expand_wyckoff_section s count = .ok t := by
  induction s with
  | nil => exact fun _ _ => ⟨[], rfl⟩
  | cons c rest ih =>
    intro count h
    by_cases ha : isalpha c = true
    · obtain ⟨t, ht⟩ := ih 0 (fun d hd => h d (by simp [hd]))
      exact ⟨List.replicate (if count = 0 then 1 else count) c ++ t,
        by simp [expand_wyckoff_section, Except.map, ha, ht]⟩
    · have hd : isdigit c = true := (h c (by simp)).resolve_left ha
      obtain ⟨t, ht⟩ := ih (count * 10 + digitVal c) (fun d hd => h d (by simp [hd]))
      exact ⟨t, by simp [expand_wyckoff_section, ha, hd, ht]⟩

/-- Expansion fails with the `assert` precisely when the section holds a
character that is neither a letter nor a digit. -/
theorem expand_err_of_bad (s : List Char) : ∀ count : Nat,
    (∃ c ∈ s, isalpha c = false ∧ isdigit c = false) →
    expand_wyckoff_section s count = .error .assertionError := by
  induction s with
  | nil => rintro count ⟨c, hc, -⟩; simp at hc
  | cons c rest ih =>
    rintro count ⟨d, hd, hda, hdd⟩
    rcases List.mem_cons.mp hd with rfl | hmem
    · simp [expand_wyckoff_section, hda, hdd]
    · by_cases ha : isalpha c = true
      · have h := ih 0 ⟨d, hmem, hda, hdd⟩
        simp [expand_wyckoff_section, Except.map, ha, h]
      · by_cases hdig : isdigit c = true
        · have h := ih (count * 10 + digitVal c) ⟨d, hmem, hda, hdd⟩
          simp [expand_wyckoff_section, ha, hdig, h]
        · simp [expand_wyckoff_section, ha, hdig]

/-- C7: a run `<count><letter>` expands to the letter repeated `count` times
and a bare letter has implicit count 1: expanding `2f` yields `ff` and
expanding `ef2h2kl` yields `efhhkkl`; expansion applied to a section
containing only letters returns it unchanged. -/
theorem C7_run_length_expansion :
    expand_wyckoff_section "2f".data 0 = .ok "ff".data ∧
    expand_wyckoff_section "ef2h2kl".data 0 = .ok "efhhkkl".data ∧
    ∀ s : List Char, (∀ c ∈ s, isalpha c = true) →
      expand_wyckoff_section s 0 = .ok s :=
  ⟨by decide, by decide, expand_of_all_alpha⟩

/-- Witness for C7 at the already-expanded section `abc`. -/
theorem C7_run_length_expansion_witness :
    expand_wyckoff_section "abc".data 0 = .ok "abc".data :=
  C7_run_length_expansion.2.2 "abc".data (by decide)

/-- C8 counterexample: on the section `f2`, whose trailing digit leaves a
pending count with no letter to attach to, expansion does not fail: it
silently returns `f`. -/
theorem C8_counterexample :
    expand_wyckoff_section "f2".data 0 = .ok "f".data := by decide

/-- C8 (amended): a pending count left at the end of a section is silently
dropped (`f2` expands to `f` without error); expansion of any section of
letters and digits succeeds, and it fails (with the `assert isdigit`) exactly
when the section contains a character that is neither a letter nor a digit. -/
theorem C8_trailing_count_dropped :
    expand_wyckoff_section "f2".data 0 = .ok "f".data ∧
    (∀ s : List Char, (∀ c ∈ s, isalpha c = true ∨ isdigit c = true) →
      ∃ t, expand_wyckoff_section s 0 = .ok t) ∧
    (∀ s : List Char, (∃ c ∈ s, isalpha c = false ∧ isdigit c = false) →
      expand_wyckoff_section s 0 = .error .assertionError) :=
  ⟨by decide, fun s h => expand_ok_of_alnum s 0 h, fun s h => expand_err_of_bad s 0 h⟩

/-- Witness for the amended C8 at the sections `ab2c` and `a-b`. -/
theorem C8_trailing_count_dropped_witness :
    (∃ t, expand_wyckoff_section "ab2c".data 0 = .ok t) ∧
    expand_wyckoff_section "a-b".data 0 = .error .assertionError :=
  ⟨C8_trailing_count_dropped.2.1 "ab2c".data (by decide),
   C8_trailing_count_dropped.2.2 "a-b".data (by decide)⟩

/-- For a member of the left list of a zip of equal-length lists there is a
pair in the zip carrying it. -/
theorem exists_pair_mem_zip {α β : Type _} :
    ∀ (l₁ : List α) (l₂ : List β) (b : α), b ∈ l₁ → l₁.length = l₂.length →
    ∃ y, (b, y) ∈ l₁.zip l₂ := by
  intro l₁
  induction l₁ with
  | nil => simp
  | cons x xs ih =>
    intro l₂ b hb hlen
    cases l₂ with
    | nil => simp at hlen
    | cons y ys =>
      rcases List.mem_cons.mp hb with rfl | hb
      · exact ⟨y, by simp⟩
      · obtain ⟨z, hz⟩ := ih ys b hb (by simp at hlen; omega)
        exact ⟨z, by simp [hz]⟩

/-- While only non-internal names have been seen, the split loop copies values
into the cell part and keeps the flag unset. -/
theorem split_loop_cell_phase {α : Type} :
    ∀ (ns : List String) (vs : List α) (rest : List (String × α)) (cell internal : List α),
    ns.length = vs.length →
    (∀ n ∈ ns, n.data ≠ [] ∧ head_internal n = false) →
    split_parameter_loop (ns.zip vs ++ rest) false cell internal =
      split_parameter_loop rest false (cell ++ vs) internal := by
  intro ns
  induction ns with
  | nil =>
    intro vs rest cell internal hlen h
    have hvs : vs = [] := List.eq_nil_of_length_eq_zero (by simpa using hlen.symm)
    subst hvs
    simp
  | cons n ns ih =>
    intro vs rest cell internal hlen h
    cases vs with
    | nil => simp at hlen
    | cons v vs =>
      obtain ⟨hne, hhead⟩ := h n (by simp)
      obtain ⟨c, cs, hdata⟩ := List.exists_cons_of_ne_nil hne
      have hnotint : ¬(c = 'x' ∨ c = 'y' ∨ c = 'z') := by
        simpa [head_internal, hdata] using hhead
      have step : split_parameter_loop ((n, v) :: (ns.zip vs ++ rest)) false cell internal =
          split_parameter_loop (ns.zip vs ++ rest) false (cell ++ [v]) internal := by
        simp [split_parameter_loop, hdata, hnotint]
      have hlen' : ns.length = vs.length := by simp at hlen; omega
      calc split_parameter_loop ((n :: ns).zip (v :: vs) ++ rest) false cell internal
          = split_parameter_loop (ns.zip vs ++ rest) false (cell ++ [v]) internal := by
            simpa [List.zip_cons_cons] using step
        _ = split_parameter_loop rest false ((cell ++ [v]) ++ vs) internal :=
            ih vs rest (cell ++ [v]) internal hlen' (fun m hm => h m (by simp [hm]))
        _ = split_parameter_loop rest false (cell ++ v :: vs) internal := by
            simp

/-- Once every remaining name is internal, the split loop copies the values
into the internal part and succeeds, whatever the current flag. -/
theorem split_loop_internal_phase {α : Type} :
    ∀ (ns : List String) (vs : List α) (flag : Bool) (cell internal : List α),
    ns.length = vs.length →
    (∀ n ∈ ns, head_internal n = true) →
    split_parameter_loop (ns.zip vs) flag cell internal = .ok (cell, internal ++ vs) := by
  intro ns
  induction ns with
  | nil =>
    intro vs flag cell internal hlen _h
    have hvs : vs = [] := List.eq_nil_of_length_eq_zero (by simpa using hlen.symm)
    subst hvs
    simp [split_parameter_loop]
  | cons n ns ih =>
    intro vs flag cell internal hlen h
    cases vs with
    | nil => simp at hlen
    | cons v vs =>
      have hhead := h n (by simp)
      obtain ⟨c, cs, hdata, hcint⟩ :
          ∃ c cs, n.data = c :: cs ∧ (c = 'x' ∨ c = 'y' ∨ c = 'z') := by
        cases hd : n.data with
        | nil => rw [head_internal, hd] at hhead; simp at hhead
        | cons c cs => exact ⟨c, cs, rfl, by simpa [head_internal, hd] using hhead⟩
      have step : split_parameter_loop ((n, v) :: ns.zip vs) flag cell internal =
          split_parameter_loop (ns.zip vs) true cell (internal ++ [v]) := by
        cases flag <;> simp [split_parameter_loop, hdata, hcint]
      have hlen' : ns.length = vs.length := by simp at hlen; omega
      calc split_parameter_loop ((n :: ns).zip (v :: vs)) flag cell internal
          = split_parameter_loop (ns.zip vs) true cell (internal ++ [v]) := by
            simpa [List.zip_cons_cons] using step
        _ = .ok (cell, (internal ++ [v]) ++ vs) :=
            ih vs true cell (internal ++ [v]) hlen' (fun m hm => h m (by simp [hm]))
        _ = .ok (cell, internal ++ v :: vs) := by simp

/-- Once the flag is set, any later pair whose name is not internal makes the
loop fail the `assert`. -/
theorem split_loop_err_after {α : Type} :
    ∀ (pairs : List (String × α)) (cell internal : List α),
    (∀ p ∈ pairs, p.1.data ≠ []) →
    (∃ p ∈ pairs, head_internal p.1 = false) →
    split_parameter_loop pairs true cell internal = .error .assertionError := by
  intro pairs
  induction pairs with
  | nil => rintro cell internal _ ⟨p, hp, -⟩; simp at hp
  | cons nv rest ih =>
    rintro cell internal hne ⟨p, hp, hphead⟩
    obtain ⟨n, v⟩ := nv
    obtain ⟨c, cs, hdata⟩ :=
      List.exists_cons_of_ne_nil (show n.data ≠ [] from hne (n, v) (by simp))
    by_cases hint : c = 'x' ∨ c = 'y' ∨ c = 'z'
    · have step : split_parameter_loop ((n, v) :: rest) true cell internal =
          split_parameter_loop rest true cell (internal ++ [v]) := by
        simp [split_parameter_loop, hdata, hint]
      rcases List.mem_cons.mp hp with rfl | hmem
      · rw [head_internal, hdata] at hphead; simp [hint] at hphead
      · rw [step]
        exact ih cell (internal ++ [v]) (fun m hm => hne m (by simp [hm])) ⟨p, hmem, hphead⟩
    · simp [split_parameter_loop, hdata, hint]

/-- An internal name followed (anywhere later) by a non-internal name makes
the loop fail the `assert`, starting from the unset flag. -/
theorem split_loop_err_reach {α : Type} :
    ∀ (u : List (String × α)) (a : String × α) (w : List (String × α))
      (cell internal : List α),
    (∀ p ∈ u ++ a :: w, p.1.data ≠ []) →
    head_internal a.1 = true →
    (∃ b ∈ w, head_internal b.1 = false) →
    split_parameter_loop (u ++ a :: w) false cell internal = .error .assertionError := by
  intro u
  induction u with
  | nil =>
    rintro a w cell internal hne hahead hw
    obtain ⟨n, v⟩ := a
    obtain ⟨c, cs, hdata, hcint⟩ :
        ∃ c cs, n.data = c :: cs ∧ (c = 'x' ∨ c = 'y' ∨ c = 'z') := by
      cases hd : n.data with
      | nil =>
        exact absurd hd (hne (n, v) (by simp))
      | cons c cs =>
        exact ⟨c, cs, rfl, by simpa [head_internal, hd] using hahead⟩
    have step : split_parameter_loop ((n, v) :: w) false cell internal =
        split_parameter_loop w true cell (internal ++ [v]) := by
      simp [split_parameter_loop, hdata, hcint]
    rw [List.nil_append, step]
    exact split_loop_err_after w cell (internal ++ [v])
      (fun m hm => hne m (by simp [hm])) hw
  | cons nv u ih =>
    rintro a w cell internal hne hahead hw
    obtain ⟨n, v⟩ := nv
    obtain ⟨c, cs, hdata⟩ :=
      List.exists_cons_of_ne_nil (show n.data ≠ [] from hne (n, v) (by simp))
    by_cases hint : c = 'x' ∨ c = 'y' ∨ c = 'z'
    · have step : split_parameter_loop ((n, v) :: (u ++ a :: w)) false cell internal =
          split_parameter_loop (u ++ a :: w) true cell (internal ++ [v]) := by
        simp [split_parameter_loop, hdata, hint]
      rw [List.cons_append, step]
      obtain ⟨b, hbmem, hbhead⟩ := hw
      exact split_loop_err_after (u ++ a :: w) cell (internal ++ [v])
        (fun m hm => hne m (by simp [hm])) ⟨b, by simp [hbmem], hbhead⟩
    · have step : split_parameter_loop ((n, v) :: (u ++ a :: w)) false cell internal =
          split_parameter_loop (u ++ a :: w) false (cell ++ [v]) internal := by
        simp [split_parameter_loop, hdata, hint]
      rw [List.cons_append, step]
      exact ih a w (cell ++ [v]) internal (fun m hm => hne m (by simp [hm])) hahead hw

/-- C9: when every internal parameter name comes after all cell parameter
names (every name nonempty, as the claim classifies names by their first
character), `split_parameter_array` returns the cell values paired with the
names before the first internal name together with the remaining values, whose
concatenation is the input; and when an internal name is followed by a
non-internal one it fails with the `assert` instead of returning. -/
theorem C9_split_parameter_array {α : Type} :
    (∀ (ns1 ns2 : List String) (vs1 vs2 : List α),
      ns1.length = vs1.length → ns2.length = vs2.length →
      (∀ n ∈ ns1, n.data ≠ [] ∧ head_internal n = false) →
      (∀ n ∈ ns2, head_internal n = true) →
      split_parameter_array (ns1 ++ ns2) (vs1 ++ vs2) = .ok (vs1, vs2)) ∧
    (∀ (p q : List String) (a b : String) (vp : List α) (va : α) (vq : List α),
      p.length = vp.length → q.length = vq.length →
      (∀ n ∈ p ++ a :: q, n.data ≠ []) →
      head_internal a = true → b ∈ q → head_internal b = false →
      split_parameter_array (p ++ a :: q) (vp ++ va :: vq) = .error .assertionError) := by
  constructor
  · intro ns1 ns2 vs1 vs2 h1 h2 hcell hint
    rw [split_parameter_array, if_pos (by simp [h1, h2]),
      List.zip_append h1,
      split_loop_cell_phase ns1 vs1 (ns2.zip vs2) [] [] h1 hcell,
      split_loop_internal_phase ns2 vs2 false ([] ++ vs1) [] h2 hint]
    simp
  · intro p q a b vp va vq hp hq hne hahead hb hbhead
    rw [split_parameter_array, if_pos (by simp [hp, hq]),
      List.zip_append hp, List.zip_cons_cons]
    obtain ⟨y, hy⟩ := exists_pair_mem_zip q vq b hb hq
    refine split_loop_err_reach (p.zip vp) (a, va) (q.zip vq) [] [] ?_ hahead
      ⟨(b, y), hy, hbhead⟩
    intro m hm
    rcases List.mem_append.mp hm with hm | hm
    · exact hne m.1 (by simp [(List.of_mem_zip hm).1])
    · rcases List.mem_cons.mp hm with rfl | hm
      · exact hne a (by simp)
      · exact hne m.1 (by simp [(List.of_mem_zip hm).1])

/-- Witness for C9: a well-ordered name list splits into cell and internal
parts, and an internal name followed by a cell name fails the `assert`. -/
theorem C9_split_parameter_array_witness :
    split_parameter_array ["a", "b/a", "x1"] ([10, 2, 37] : List ℚ) = .ok ([10, 2], [37]) ∧
    split_parameter_array ["x1", "a"] ([1, 2] : List ℚ) = .error .assertionError := by
  constructor
  · have h := (C9_split_parameter_array (α := ℚ)).1 ["a", "b/a"] ["x1"] [10, 2] [37]
      (by decide) (by decide) (by decide) (by decide)
    simpa using h
  · exact (C9_split_parameter_array (α := ℚ)).2 [] ["a"] "x1" "a" [] 1 [2]
      (by decide) (by decide) (by decide) (by decide) (by decide) (by decide)

/-- Reflexivity of the Python string comparison. -/
theorem chars_le_refl : ∀ as : List Char, chars_le as as = true := by
  intro as
  induction as with
  | nil => rfl
  | cons a as ih => simp [chars_le, lt_irrefl, ih]

/-- Totality of the Python string comparison. -/
theorem chars_le_total : ∀ as bs : List Char, chars_le as bs = true ∨ chars_le bs as = true := by
  intro as
  induction as with
  | nil => intro bs; left; rfl
  | cons a as ih =>
    intro bs
    cases bs with
    | nil => right; rfl
    | cons b bs =>
      rcases lt_trichotomy a b with h | h | h
      · left; simp [chars_le, h]
      · subst h
        rcases ih bs with h2 | h2
        · left; simp [chars_le, lt_irrefl, h2]
        · right; simp [chars_le, lt_irrefl, h2]
      · right; simp [chars_le, h]

/-- Transitivity of the Python string comparison. -/
theorem chars_le_trans : ∀ as bs cs : List Char,
    chars_le as bs = true → chars_le bs cs = true → chars_le as cs = true := by
  intro as
  induction as with
  | nil => intro bs cs _ _; rfl
  | cons a as ih =>
    intro bs cs h1 h2
    cases bs with
    | nil => simp [chars_le] at h1
    | cons b bs =>
      cases cs with
      | nil => simp [chars_le] at h2
      | cons c cs =>
        by_cases hab : a < b
        · by_cases hbc : b < c
          · simp [chars_le, lt_trans hab hbc]
          · by_cases hcb : c < b
            · rw [chars_le] at h2; simp [hbc, hcb] at h2
            · have hbceq : b = c := le_antisymm (not_lt.mp hcb) (not_lt.mp hbc)
              subst hbceq
              simp [chars_le, hab]
        · by_cases hba : b < a
          · rw [chars_le] at h1; simp [hab, hba] at h1
          · have habeq : a = b := le_antisymm (not_lt.mp hba) (not_lt.mp hab)
            subst habeq
            rw [chars_le] at h1
            simp [lt_irrefl] at h1
            by_cases hac : a < c
            · simp [chars_le, hac]
            · by_cases hca : c < a
              · rw [chars_le] at h2; simp [hac, hca] at h2
              · have haceq : a = c := le_antisymm (not_lt.mp hca) (not_lt.mp hac)
                subst haceq
                rw [chars_le] at h2
                simp [lt_irrefl] at h2
                simp [chars_le, lt_irrefl, ih bs cs h1 h2]

/-- Totality of the species comparison, at the level of strings. -/
theorem string_py_le_total (a b : String) : string_py_le a b ∨ string_py_le b a :=
  chars_le_total a.data b.data

/-- Transitivity of the species comparison, at the level of strings. -/
theorem string_py_le_trans {a b c : String} (h₁ : string_py_le a b)
    (h₂ : string_py_le b c) : string_py_le a c :=
  chars_le_trans a.data b.data c.data h₁ h₂

/-- Reflexivity of the species comparison, at the level of strings. -/
theorem string_py_le_refl (a : String) : string_py_le a a :=
  chars_le_refl a.data

/-- Inserting an element whose letter is minimal into a lexicographically
sorted list by species keeps the list lexicographically sorted. -/
theorem orderedInsert_lex (x : EquivalentAtomSet) :
    ∀ (l : List EquivalentAtomSet), List.Pairwise atom_set_lex_le l →
    (∀ y ∈ l, x.wyckoff_letter ≤ y.wyckoff_letter) →
    List.Pairwise atom_set_lex_le (List.orderedInsert speciesLe x l) := by
  intro l
  induction l with
  | nil => intro _ _; simp [List.orderedInsert]
  | cons y l ih =>
    intro hsorted hlet
    rw [List.orderedInsert]
    by_cases hxy : speciesLe x y
    · rw [if_pos hxy]
      refine List.Pairwise.cons ?_ hsorted
      intro z hz
      refine ⟨?_, fun _ => hlet z hz⟩
      rcases List.mem_cons.mp hz with rfl | hzl
      · exact hxy
      · exact string_py_le_trans hxy ((List.pairwise_cons.mp hsorted).1 z hzl).1
    · rw [if_neg hxy]
      refine List.Pairwise.cons ?_
        (ih (List.pairwise_cons.mp hsorted).2
          (fun z hz => hlet z (List.mem_cons_of_mem y hz)))
      intro z hz
      rcases (List.mem_orderedInsert speciesLe).mp hz with hzx | hzl
      · rw [hzx]
        refine ⟨(string_py_le_total x.species y.species).resolve_left hxy, ?_⟩
        intro he
        exact absurd (show string_py_le x.species y.species from
          he ▸ string_py_le_refl y.species) hxy
      · exact (List.pairwise_cons.mp hsorted).1 z hzl

/-- Stably insertion-sorting a letter-sorted list by species yields the
lexicographic species-then-letter order. -/
theorem insertionSort_species_lex :
    ∀ l : List EquivalentAtomSet, List.Pairwise letterLe l →
    List.Pairwise atom_set_lex_le (List.insertionSort speciesLe l) := by
  intro l
  induction l with
  | nil => intro _; simp [List.insertionSort]
  | cons x xs ih =>
    intro h
    rw [List.insertionSort]
    refine orderedInsert_lex x (List.insertionSort speciesLe xs)
      (ih (List.pairwise_cons.mp h).2) ?_
    intro y hy
    exact (List.pairwise_cons.mp h).1 y
      (((List.perm_insertionSort speciesLe xs).mem_iff).mp hy)

/-- The two successive stable sorts of the orbit extractor produce the
canonical species-then-letter order, for any starting list. -/
theorem sort_equivalent_atom_sets_sorted (l : List EquivalentAtomSet) :
    atom_sets_canonically_sorted (sort_equivalent_atom_sets l) := by
  rw [atom_sets_canonically_sorted, sort_equivalent_atom_sets]
  exact insertionSort_species_lex (List.insertionSort letterLe l)
    (List.sorted_insertionSort letterLe l)

/-- Every successful result of the orbit extractor is the sorted form of some
list of constructed orbits. -/
theorem gp_ok_sorted_form (spglib : AtomsData → Option SpglibDataset)
    (atoms : AtomsData) (prototype_label : Option String)
    (sets : List EquivalentAtomSet)
    (h : group_positions_by_wyckoff spglib atoms prototype_label = .ok sets) :
    ∃ sets₀, sets = sort_equivalent_atom_sets sets₀ := by
  rw [group_positions_by_wyckoff.eq_def] at h
  split at h
  · exact absurd h (by simp)
  · split at h
    · exact absurd h (by simp)
    · split at h
      · exact absurd h (by simp)
      · rename_i ds _ sets₀ _
        split at h
        · split at h
          · exact absurd h (by simp)
          · exact ⟨sets₀, by injection h with h; exact h.symm⟩
        · exact ⟨sets₀, by injection h with h; exact h.symm⟩

/-- C6: every orbit list returned by the orbit extractor is ordered first by
species alphabetically and, among equal species, by detected Wyckoff letter
alphabetically. -/
theorem C6_extractor_output_sorted (spglib : AtomsData → Option SpglibDataset)
    (atoms : AtomsData) (prototype_label : Option String)
    (sets : List EquivalentAtomSet)
    (h : group_positions_by_wyckoff spglib atoms prototype_label = .ok sets) :
    atom_sets_canonically_sorted sets := by
  obtain ⟨sets₀, rfl⟩ := gp_ok_sorted_form spglib atoms prototype_label sets h
  exact sort_equivalent_atom_sets_sorted sets₀

/-- Witness for C6 on a concrete two-species structure whose spglib orbits
arrive in reverse species order. -/
theorem C6_extractor_output_sorted_witness :
    atom_sets_canonically_sorted
      [⟨"Al", 'a', [(1/2, 1/2, 1/2)]⟩, ⟨"B", 'a', [(0, 0, 0)]⟩] :=
  C6_extractor_output_sorted (fun _ => some ⟨1, ['a', 'a'], [0, 1]⟩) c6_atoms none
    [⟨"Al", 'a', [(1/2, 1/2, 1/2)]⟩, ⟨"B", 'a', [(0, 0, 0)]⟩] (by decide)

/-- The letter loop of the extractor succeeds when every corresponding pair is
in the same Wyckoff set. -/
theorem check_letter_pairs_ok (sg : Nat) :
    ∀ pairs : List (Char × Char),
    (∀ p ∈ pairs, are_in_same_wyckoff_set p.2 p.1 sg = .ok (some true)) →
    check_letter_pairs sg pairs = .ok () := by
  intro pairs
  induction pairs with
  | nil => intro _; rfl
  | cons p rest ih =>
    intro h
    obtain ⟨l1, l2⟩ := p
    have hp := h (l1, l2) (by simp)
    simp only [] at hp
    simp [check_letter_pairs, hp, truthy, ih (fun q hq => h q (by simp [hq]))]

/-- The letter loop of the extractor raises the Wyckoff inconsistency when
some corresponding pair is not in the same Wyckoff set (the space group being
present in the table). -/
theorem check_letter_pairs_err (sg : Nat) (htab : (wyckoff_sets_table sg).isSome) :
    ∀ pairs : List (Char × Char),
    (∃ p ∈ pairs, are_in_same_wyckoff_set p.2 p.1 sg ≠ .ok (some true)) →
    check_letter_pairs sg pairs = .error .inconsistentWyckoffException := by
  intro pairs
  induction pairs with
  | nil => rintro ⟨p, hp, -⟩; simp at hp
  | cons q rest ih =>
    rintro ⟨p, hp, hviol⟩
    obtain ⟨l1, l2⟩ := q
    obtain ⟨sets, hsets⟩ := Option.isSome_iff_exists.mp htab
    have hres : are_in_same_wyckoff_set l2 l1 sg =
        .ok (find_letter_in_sets l2 l1 sets) := by
      rw [are_in_same_wyckoff_set, hsets]
    rcases List.mem_cons.mp hp with rfl | hmem
    · have hne : find_letter_in_sets l2 l1 sets ≠ some true := by
        intro hc
        exact hviol (by simpa [hc] using hres)
      have htr : truthy (find_letter_in_sets l2 l1 sets) = false := by
        cases hfind : find_letter_in_sets l2 l1 sets with
        | none => rfl
        | some b =>
          cases b with
          | true => exact absurd hfind hne
          | false => rfl
      simp [check_letter_pairs, hres, htr]
    · by_cases htr : truthy (find_letter_in_sets l2 l1 sets)
      · simp [check_letter_pairs, hres, htr, ih ⟨p, hmem, hviol⟩]
      · simp [check_letter_pairs, hres, htr]

/-- C4 counterexample: checking the two-atom structure `c4_atoms` against
`A_cF8_225_ab`, the extractor raises `inconsistentWyckoffException` (the label
declares two inequivalent atoms, spglib found one orbit) even though every
corresponding letter pair is in the same Wyckoff set, so the error is raised
without any detected letter failing Wyckoff-set membership. -/
theorem C4_counterexample :
    group_positions_by_wyckoff c4_spglib c4_atoms (some "A_cF8_225_ab") =
      .error .inconsistentWyckoffException ∧
    ¬ wyckoff_pair_violation "ab".data ['a'] 225 := by
  constructor
  · decide
  · rw [wyckoff_pair_violation]
    decide

/-- C4 (amended): once the extractor's earlier checks pass (atom count, spglib
detection, orbit construction, space-group number, species count and orbit
count), it raises `inconsistentWyckoffException` precisely when some detected
orbit letter is not in the same Wyckoff set as the label letter at the
corresponding canonical position; with no violating pair the sorted orbits are
returned, so a detected letter that differs within the same set is accepted. -/
theorem C4_wyckoff_check_iff (spglib : AtomsData → Option SpglibDataset)
    (atoms : AtomsData) (lbl : String) (ds : SpglibDataset)
    (sets₀ : List EquivalentAtomSet) (sg : Nat) (wls : List (List Char))
    (hnum : check_number_of_atoms (atoms_len atoms) lbl true = .ok ())
    (hds : spglib atoms = some ds)
    (hbuild : build_equivalent_atom_sets atoms ds = .ok sets₀)
    (hsg : get_space_group_number_from_prototype lbl = .ok sg)
    (htab : (wyckoff_sets_table sg).isSome)
    (hnumber : ds.number = sg)
    (hwls : get_wyckoff_lists_from_prototype lbl = .ok wls)
    (hspec : wls.length = atoms.symbols.dedup.length)
    (hcount : wls.flatten.length = (sort_equivalent_atom_sets sets₀).length) :
    (group_positions_by_wyckoff spglib atoms (some lbl) =
        .error .inconsistentWyckoffException ↔
      wyckoff_pair_violation wls.flatten
        ((sort_equivalent_atom_sets sets₀).map (fun s => s.wyckoff_letter)) sg) ∧
    (¬ wyckoff_pair_violation wls.flatten
        ((sort_equivalent_atom_sets sets₀).map (fun s => s.wyckoff_letter)) sg →
      group_positions_by_wyckoff spglib atoms (some lbl) =
        .ok (sort_equivalent_atom_sets sets₀)) := by
  have hlcc : label_consistency_checks lbl ds.number atoms.symbols.dedup.length
      (sort_equivalent_atom_sets sets₀) =
      check_letter_pairs sg (wls.flatten.zip
        ((sort_equivalent_atom_sets sets₀).map (fun s => s.wyckoff_letter))) := by
    rw [label_consistency_checks, hsg, hwls]
    simp [hnumber, hspec, hcount]
  have hgp : ∀ r, check_letter_pairs sg (wls.flatten.zip
        ((sort_equivalent_atom_sets sets₀).map (fun s => s.wyckoff_letter))) = r →
      group_positions_by_wyckoff spglib atoms (some lbl) =
        (match r with
         | .error e => .error e
         | .ok _ => .ok (sort_equivalent_atom_sets sets₀)) := by
    intro r hr
    simp only [group_positions_by_wyckoff, hnum, hds, hbuild, hlcc, hr]
  constructor
  · constructor
    · intro herr
      by_contra hnv
      rw [wyckoff_pair_violation] at hnv
      push_neg at hnv
      have hok := check_letter_pairs_ok sg _ (fun p hp => hnv p hp)
      have := hgp _ hok
      rw [this] at herr
      exact absurd herr (by simp)
    · intro hv
      rw [wyckoff_pair_violation] at hv
      exact hgp _ (check_letter_pairs_err sg htab _ hv)
  · intro hnv
    rw [wyckoff_pair_violation] at hnv
    push_neg at hnv
    exact hgp _ (check_letter_pairs_ok sg _ (fun p hp => hnv p hp))

/-- Witness for the amended C4: a Wyckoff shuffle (label letter `a`, detected
letter `b`, same set in space group 2) is accepted without error. -/
theorem C4_wyckoff_check_iff_witness :
    group_positions_by_wyckoff (fun _ => some ⟨2, ['b'], [0]⟩) c4w_atoms
      (some "A_aP1_2_a") =
      .ok (sort_equivalent_atom_sets [⟨"H", 'b', [(0, 0, 0)]⟩]) := by
  refine (C4_wyckoff_check_iff (fun _ => some ⟨2, ['b'], [0]⟩) c4w_atoms "A_aP1_2_a"
    ⟨2, ['b'], [0]⟩ [⟨"H", 'b', [(0, 0, 0)]⟩] 2 [['a']]
    (by decide) rfl (by decide) (by decide) (by decide) (by decide) (by decide)
    (by decide) (by decide)).2 ?_
  rw [wyckoff_pair_violation]
  decide

/-- C2 counterexample: aflow redetects the structure's prototype as
`A_cF4_221_a` (space group 221) while the nominal label is `A_cF4_225_a`
(space group 225); the solver returns a silent `None` at its label-equivalence
gate instead of raising a consistency violation. -/
theorem C2_counterexample :
    (solve_for_internal_params c2_oracles [c2_atoms] 0 [] "A_cF4_225_a"
      (1 / 100000)).2 = .ok none ∧
    get_space_group_number_from_prototype c2_oracles.detected_label = .ok 221 ∧
    get_space_group_number_from_prototype "A_cF4_225_a" = .ok 225 := by
  refine ⟨by decide, by decide, by decide⟩

/-- C2 (amended): it is the spglib-based orbit extraction that raises
`incorrectSpaceGroupException` whenever the detected space group differs from
the nominal label's number; the solver itself first compares the
aflow-redetected prototype label against the nominal one and returns a silent
`None` when they disagree (including disagreeing space groups). -/
theorem C2_spacegroup_mismatch_raises (spglib : AtomsData → Option SpglibDataset)
    (atoms : AtomsData) (lbl : String) (ds : SpglibDataset)
    (sets₀ : List EquivalentAtomSet) (sg : Nat)
    (hnum : check_number_of_atoms (atoms_len atoms) lbl true = .ok ())
    (hds : spglib atoms = some ds)
    (hbuild : build_equivalent_atom_sets atoms ds = .ok sets₀)
    (hsg : get_space_group_number_from_prototype lbl = .ok sg)
    (hne : ds.number ≠ sg) :
    group_positions_by_wyckoff spglib atoms (some lbl) =
      .error .incorrectSpaceGroupException := by
  have hlcc : label_consistency_checks lbl ds.number atoms.symbols.dedup.length
      (sort_equivalent_atom_sets sets₀) = .error .incorrectSpaceGroupException := by
    rw [label_consistency_checks, hsg]
    simp [hne]
  simp only [group_positions_by_wyckoff, hnum, hds, hbuild, hlcc]

/-- Witness for the amended C2: spglib detects space group 2 against label
`A_aP1_1_a` (space group 1). -/
theorem C2_spacegroup_mismatch_raises_witness :
    group_positions_by_wyckoff (fun _ => some ⟨2, ['a'], [0]⟩) c2_atoms
      (some "A_aP1_1_a") = .error .incorrectSpaceGroupException :=
  C2_spacegroup_mismatch_raises (fun _ => some ⟨2, ['a'], [0]⟩) c2_atoms "A_aP1_1_a"
    ⟨2, ['a'], [0]⟩ [⟨"Al", 'a', [(0, 0, 0)]⟩] 1
    (by decide) rfl (by decide) (by decide) (by decide)

/-- C3 counterexample: orbit re-extraction is inconsistent at the first of two
candidate internal shifts (spglib letter `c` against label letter `a` in space
group 225), and the whole resolution attempt aborts with
`inconsistentWyckoffException` instead of continuing to the second shift. -/
theorem C3_counterexample :
    (solve_for_internal_params c3_oracles [c3_atoms] 0 [] "A_cF4_225_a"
      (1 / 100000)).2 = .error .inconsistentWyckoffException ∧
    c3_oracles.internal_cartesian_translations.length = 2 := by
  refine ⟨by decide, rfl⟩

/-- C3 (amended): when orbit re-extraction against the nominal label fails at
a candidate internal shift, the shift search returns that error at once,
aborting the whole resolution attempt rather than moving to the next shift. -/
theorem C3_inconsistent_shift_aborts (lstsq : CoeffMat → Vec3 → List ℚ × List ℚ)
    (spglib : AtomsData → Option SpglibDataset) (max_resid : ℚ) (nominal : String)
    (eqsets : List EquivalentEqnSet) (r : Nat) (t : Vec3) (rest : List Vec3)
    (σ : Store) (e : KimError)
    (h : group_positions_by_wyckoff spglib
      (store_get (store_update (store_update σ r (fun a => translate a t)) r wrap) r)
      (some nominal) = .error e) :
    (shift_search_loop lstsq spglib max_resid nominal eqsets r (t :: rest) σ).2 =
      .error e := by
  simp only [shift_search_loop, h]

/-- Witness for the amended C3 on the concrete inconsistent scenario. -/
theorem C3_inconsistent_shift_aborts_witness :
    (shift_search_loop (fun _ _ => ([], [])) (fun _ => some ⟨225, ['c'], [0]⟩)
      (1 / 100000) "A_cF4_225_a" [] 1 [(0, 0, 0), (0, 0, 0)]
      [c3_atoms, c3_atoms]).2 = .error .inconsistentWyckoffException :=
  C3_inconsistent_shift_aborts (fun _ _ => ([], [])) (fun _ => some ⟨225, ['c'], [0]⟩)
    (1 / 100000) "A_cF4_225_a" [] 1 (0, 0, 0) [(0, 0, 0)] [c3_atoms, c3_atoms]
    .inconsistentWyckoffException (by decide)

/-- Mutating the object at one reference leaves every other reference
unchanged. -/
theorem store_update_get?_ne (σ : Store) (r j : Nat) (f : AtomsData → AtomsData)
    (h : j ≠ r) : (store_update σ r f).get? j = σ.get? j := by
  rw [store_update]
  exact List.get?_set_ne _ _ (fun hc => h hc.symm)

/-- The shift search only ever mutates the object at its working reference. -/
theorem shift_search_loop_preserves (lstsq : CoeffMat → Vec3 → List ℚ × List ℚ)
    (spglib : AtomsData → Option SpglibDataset) (max_resid : ℚ) (nominal : String)
    (eqsets : List EquivalentEqnSet) (r : Nat) :
    ∀ (ts : List Vec3) (σ : Store) (j : Nat), j ≠ r →
    ((shift_search_loop lstsq spglib max_resid nominal eqsets r ts σ).1).get? j =
      σ.get? j := by
  intro ts
  induction ts with
  | nil => intro σ j _; rfl
  | cons t rest ih =>
    intro σ j h
    have h₂ : ∀ f g, (store_update (store_update σ r f) r g).get? j = σ.get? j :=
      fun f g => by rw [store_update_get?_ne _ _ _ _ h, store_update_get?_ne _ _ _ _ h]
    simp only [shift_search_loop]
    split
    · exact h₂ _ _
    · split
      · exact h₂ _ _
      · split
        · exact h₂ _ _
        · split
          · exact h₂ _ _
          · split
            · split
              · exact h₂ _ _
              · exact h₂ _ _
            · rw [ih _ j h]
              exact h₂ _ _

/-- C10: `solve_for_internal_params` never mutates its input `Atoms` object:
whatever the outcome, the caller's structure at `atoms_ref` is unchanged (all
shifts, internal translations and wraps are applied to the freshly allocated
copy). -/
theorem C10_solver_input_unchanged (O : SolverOracles) (σ : Store)
    (atoms_ref : Nat) (eqsets : List EquivalentEqnSet) (nominal : String)
    (mr : ℚ) (h : atoms_ref < σ.length) :
    ((solve_for_internal_params O σ atoms_ref eqsets nominal mr).1).get? atoms_ref =
      σ.get? atoms_ref := by
  have hne : atoms_ref ≠ σ.length := Nat.ne_of_lt h
  simp only [solve_for_internal_params]
  split
  · rfl
  · split
    · rfl
    · split
      · rfl
      · split
        · rfl
        · rw [shift_search_loop_preserves _ _ _ _ _ _ _ _ _ hne,
            store_update_get?_ne _ _ _ _ hne, List.get?_append h]

/-- Witness for C10 on a concrete one-object store. -/
theorem C10_solver_input_unchanged_witness :
    (0 : Nat) < ([c2_atoms] : Store).length ∧
    ((solve_for_internal_params c2_oracles [c2_atoms] 0 [] "A_cF4_225_a"
      (1 / 100000)).1).get? 0 = ([c2_atoms] : Store).get? 0 :=
  ⟨by decide,
   C10_solver_input_unchanged c2_oracles [c2_atoms] 0 [] "A_cF4_225_a"
     (1 / 100000) (by decide)⟩

/-- The Python `% 1` wrap is the fractional part. -/
theorem qmod1_eq_fract (q : ℚ) : qmod1 q = Int.fract q := by
  have h : Int.fdiv q.num q.den = ⌊q⌋ := by
    rw [Rat.floor_def]
    exact Int.fdiv_eq_ediv _ (Int.natCast_nonneg _)
  rw [qmod1, Int.fract, h]

/-- The wrapped value is nonnegative. -/
theorem qmod1_nonneg (q : ℚ) : 0 ≤ qmod1 q := by
  rw [qmod1_eq_fract]
  exact Int.fract_nonneg q

/-- The wrapped value is below one. -/
theorem qmod1_lt_one (q : ℚ) : qmod1 q < 1 := by
  rw [qmod1_eq_fract]
  exact Int.fract_lt_one q

/-- A successful lookup in an association list finds one of its pairs. -/
theorem lookup_mem : ∀ (d : List (String × ℚ)) (n : String) (v : ℚ),
    d.lookup n = some v → (n, v) ∈ d := by
  intro d
  induction d with
  | nil => intro n v h; simp [List.lookup] at h
  | cons p rest ih =>
    intro n v h
    obtain ⟨k, b⟩ := p
    rw [List.lookup] at h
    by_cases he : (n == k) = true
    · have hn : n = k := eq_of_beq he
      simp only [he] at h
      injection h with h
      subst hn
      subst h
      exact List.mem_cons_self _ _
    · simp only [Bool.not_eq_true] at he
      simp only [he] at h
      exact List.mem_cons_of_mem _ (ih n v h)

/-- The parameter-recording loop only adds wrapped values. -/
theorem record_params_loop_wrapped :
    ∀ (pairs : List (String × ℚ)) (d d' : List (String × ℚ)),
    dict_values_wrapped d → record_params_loop pairs d = .ok d' →
    dict_values_wrapped d' := by
  intro pairs
  induction pairs with
  | nil =>
    intro d d' hd h
    rw [record_params_loop] at h
    injection h with h
    exact h ▸ hd
  | cons p rest ih =>
    intro d d' hd h
    obtain ⟨n, v⟩ := p
    rw [record_params_loop] at h
    by_cases hl : (d.lookup n).isSome
    · simp [hl] at h
    · simp only [hl, if_true, if_false, Bool.false_eq_true] at h
      refine ih _ _ ?_ h
      intro q hq
      rcases List.mem_append.mp hq with hq | hq
      · exact hd q hq
      · rcases List.mem_singleton.mp hq with rfl
        exact ⟨v, rfl⟩

/-- The parameter recorder only adds wrapped values. -/
theorem record_params_wrapped (names : List String) (vals : List ℚ)
    (d d' : List (String × ℚ)) (hd : dict_values_wrapped d)
    (h : record_params names vals d = .ok d') : dict_values_wrapped d' := by
  rw [record_params] at h
  split at h
  · exact record_params_loop_wrapped _ _ _ hd h
  · exact absurd h (by simp)

/-- One equation-set matching step only adds wrapped values to the dict. -/
theorem match_one_wrapped (lstsq : CoeffMat → Vec3 → List ℚ × List ℚ)
    (max_resid : ℚ) (sg : Nat) (spMap : List (String × String))
    (es : EquivalentEqnSet) :
    ∀ (psets : List (EquivalentAtomSet × Bool)) (d : List (String × ℚ))
      (res : List (EquivalentAtomSet × Bool) × List (String × ℚ) × Bool),
    dict_values_wrapped d →
    match_one_equation_set lstsq max_resid sg spMap es psets d = .ok res →
    dict_values_wrapped res.2.1 := by
  intro psets
  induction psets with
  | nil =>
    intro d res hd h
    rw [match_one_equation_set] at h
    injection h with h
    exact h ▸ hd
  | cons pf rest ih =>
    intro d res hd h
    obtain ⟨ps, flag⟩ := pf
    rw [match_one_equation_set] at h
    repeat' split at h
    all_goals first
      | (injection h
         done)
      | (rename_i heq
         injection h with h
         rw [← h]
         first
           | simpa using ih _ _ hd heq
           | simpa using record_params_wrapped _ _ _ _ hd heq)

/-- The loop over all equation sets only adds wrapped values to the dict. -/
theorem match_all_wrapped (lstsq : CoeffMat → Vec3 → List ℚ × List ℚ)
    (max_resid : ℚ) (sg : Nat) (spMap : List (String × String)) :
    ∀ (eqsets : List EquivalentEqnSet) (psets : List (EquivalentAtomSet × Bool))
      (d : List (String × ℚ))
      (res : List (EquivalentAtomSet × Bool) × List (String × ℚ)),
    dict_values_wrapped d →
    match_all_equation_sets lstsq max_resid sg spMap eqsets psets d = .ok res →
    dict_values_wrapped res.2 := by
  intro eqsets
  induction eqsets with
  | nil =>
    intro psets d res hd h
    rw [match_all_equation_sets] at h
    injection h with h
    exact h ▸ hd
  | cons es rest ih =>
    intro psets d res hd h
    rw [match_all_equation_sets] at h
    split at h
    all_goals first
      | (injection h
         done)
      | (rename_i heq
         refine ih _ _ res ?_ h
         simpa using match_one_wrapped lstsq max_resid sg spMap es psets d _ hd heq)

/-- Every key computed for the return expression is the sort key of its
name. -/
theorem compute_keys_spec : ∀ (d : List (String × ℚ)) (ks : List (Nat × String)),
    compute_keys d = .ok ks →
    ∀ p ∈ ks, internal_parameter_sort_key p.2 = .ok p.1 := by
  intro d
  induction d with
  | nil =>
    intro ks h p hp
    rw [compute_keys] at h
    injection h with h
    rw [← h] at hp
    simp at hp
  | cons q rest ih =>
    intro ks h p hp
    rw [compute_keys] at h
    split at h
    · exact absurd h (by simp)
    · rename_i k hk
      split at h
      · exact absurd h (by simp)
      · rename_i ks' hks
        injection h with h
        rw [← h] at hp
        rcases List.mem_cons.mp hp with rfl | hmem
        · exact hk
        · exact ih ks' hks p hmem

/-- The return expression produces exactly the dict values read back in the
order of the stably sorted keys. -/
theorem assemble_return_spec (d : List (String × ℚ)) (vals : List ℚ)
    (h : assemble_return d = .ok vals) :
    ∃ keyed : List (Nat × String),
      (∀ p ∈ keyed, internal_parameter_sort_key p.2 = .ok p.1) ∧
      List.Pairwise keyPairLe keyed ∧
      vals = keyed.map (fun kn => ((d.lookup kn.2).getD 0)) := by
  rw [assemble_return] at h
  split at h
  · exact absurd h (by simp)
  · rename_i ks hks
    injection h with h
    refine ⟨List.insertionSort keyPairLe ks, ?_, ?_, h.symm⟩
    · intro p hp
      exact compute_keys_spec d ks hks p
        (((List.perm_insertionSort keyPairLe ks).mem_iff).mp hp)
    · exact List.sorted_insertionSort keyPairLe ks

/-- A successful shift search produced its values from a dict of wrapped
values through the return expression. -/
theorem shift_search_loop_success (lstsq : CoeffMat → Vec3 → List ℚ × List ℚ)
    (spglib : AtomsData → Option SpglibDataset) (max_resid : ℚ)
    (nominal : String) (eqsets : List EquivalentEqnSet) (r : Nat) :
    ∀ (ts : List Vec3) (σ : Store) (vals : List ℚ),
    (shift_search_loop lstsq spglib max_resid nominal eqsets r ts σ).2 =
      .ok (some vals) →
    ∃ d, dict_values_wrapped d ∧ assemble_return d = .ok vals := by
  intro ts
  induction ts with
  | nil =>
    intro σ vals h
    simp [shift_search_loop] at h
  | cons t rest ih =>
    intro σ vals h
    simp only [shift_search_loop] at h
    repeat' split at h
    all_goals first
      | (injection h
         done)
      | exact ih _ vals h
      | (rename_i heqm hall hx vals' hassem
         injection h with h
         injection h with h
         subst h
         refine ⟨_, ?_, hassem⟩
         simpa using match_all_wrapped lstsq max_resid _ _ eqsets _ [] _
           (fun p hp => by simp at hp) heqm)

/-- A successful solve produced its values from a dict of wrapped values
through the return expression. -/
theorem solver_success_dict (O : SolverOracles) (σ : Store) (atoms_ref : Nat)
    (eqsets : List EquivalentEqnSet) (nominal : String) (mr : ℚ) (vals : List ℚ)
    (h : (solve_for_internal_params O σ atoms_ref eqsets nominal mr).2 =
      .ok (some vals)) :
    ∃ d, dict_values_wrapped d ∧ assemble_return d = .ok vals := by
  simp only [solve_for_internal_params] at h
  repeat' split at h
  all_goals first
    | (injection h
       done)
    | (injection h with h
       injection h
       done)
    | exact shift_search_loop_success _ _ _ _ _ _ _ _ vals h

/-- The sort key computed for a well-formed internal parameter name is
`1000 * index + ord(axis)`. -/
theorem internal_key_value (s : String) (a : Char) (r : List Char) (n : Nat)
    (hs : s.data = a :: r) (ha : a = 'x' ∨ a = 'y' ∨ a = 'z')
    (hn : parseNat r = .ok n) :
    internal_parameter_sort_key s = .ok (1000 * n + a.toNat) := by
  simp only [internal_parameter_sort_key, hs]
  rw [if_pos ha, hn]
  rfl

/-- C5: whenever the solver succeeds, every returned internal parameter value
has been wrapped into `[0, 1)` by the `% 1` of the recording step, and the
values are listed in the order of the canonical internal-parameter sort keys
(nondecreasing `internal_parameter_sort_key`); on well-formed names that key
order is exactly ascending atom index first, then axis letter
(`x < y < z` by code point). -/
theorem C5_solver_values_sorted (O : SolverOracles) (σ : Store) (atoms_ref : Nat)
    (eqsets : List EquivalentEqnSet) (nominal : String) (mr : ℚ) (vals : List ℚ)
    (h : (solve_for_internal_params O σ atoms_ref eqsets nominal mr).2 =
      .ok (some vals)) :
    (∀ v ∈ vals, 0 ≤ v ∧ v < 1) ∧
    (∃ (d : List (String × ℚ)) (keyed : List (Nat × String)),
      dict_values_wrapped d ∧
      (∀ p ∈ keyed, internal_parameter_sort_key p.2 = .ok p.1) ∧
      List.Pairwise keyPairLe keyed ∧
      vals = keyed.map (fun kn => ((d.lookup kn.2).getD 0))) ∧
    (∀ (s t : String) (a₁ a₂ : Char) (r₁ r₂ : List Char) (n₁ n₂ : Nat),
      s.data = a₁ :: r₁ → t.data = a₂ :: r₂ →
      (a₁ = 'x' ∨ a₁ = 'y' ∨ a₁ = 'z') → (a₂ = 'x' ∨ a₂ = 'y' ∨ a₂ = 'z') →
      parseNat r₁ = .ok n₁ → parseNat r₂ = .ok n₂ →
      ((∃ k₁ k₂, internal_parameter_sort_key s = .ok k₁ ∧
          internal_parameter_sort_key t = .ok k₂ ∧ k₁ ≤ k₂) ↔
        (n₁ < n₂ ∨ (n₁ = n₂ ∧ a₁.toNat ≤ a₂.toNat)))) := by
  obtain ⟨d, hd, hass⟩ := solver_success_dict O σ atoms_ref eqsets nominal mr vals h
  obtain ⟨keyed, hkeys, hsorted, hvals⟩ := assemble_return_spec d vals hass
  refine ⟨?_, ⟨d, keyed, hd, hkeys, hsorted, hvals⟩, ?_⟩
  · intro v hv
    rw [hvals] at hv
    obtain ⟨kn, _, rfl⟩ := List.mem_map.mp hv
    cases hl : d.lookup kn.2 with
    | none => simp [hl]
    | some w =>
      obtain ⟨q, hq⟩ := hd (kn.2, w) (lookup_mem d kn.2 w hl)
      have hw : w = qmod1 q := hq
      simp only [Option.getD_some, hw]
      exact ⟨qmod1_nonneg q, qmod1_lt_one q⟩
  · intro s t a₁ a₂ r₁ r₂ n₁ n₂ hs ht ha₁ ha₂ hn₁ hn₂
    have hiff : (∃ k₁ k₂, internal_parameter_sort_key s = .ok k₁ ∧
        internal_parameter_sort_key t = .ok k₂ ∧ k₁ ≤ k₂) ↔
        1000 * n₁ + a₁.toNat ≤ 1000 * n₂ + a₂.toNat := by
      constructor
      · rintro ⟨k₁, k₂, h₁, h₂, hle⟩
        rw [internal_key_value s a₁ r₁ n₁ hs ha₁ hn₁] at h₁
        rw [internal_key_value t a₂ r₂ n₂ ht ha₂ hn₂] at h₂
        injection h₁ with h₁
        injection h₂ with h₂
        subst h₁
        subst h₂
        exact hle
      · intro hle
        exact ⟨_, _, internal_key_value s a₁ r₁ n₁ hs ha₁ hn₁,
          internal_key_value t a₂ r₂ n₂ ht ha₂ hn₂, hle⟩
    rw [hiff]
    have hx : ('x' : Char).toNat = 120 := by decide
    have hy : ('y' : Char).toNat = 121 := by decide
    have hz : ('z' : Char).toNat = 122 := by decide
    rcases ha₁ with rfl | rfl | rfl <;> rcases ha₂ with rfl | rfl | rfl <;>
      simp only [hx, hy, hz] <;> omega

set_option maxRecDepth 8000 in
/-- Witness for C5 on a concrete successful solve with internal parameters
`x1`, `y1`, `z1` solved as `1/2`, `1/3`, `1/4`. -/
theorem C5_solver_values_sorted_witness : 0 ≤ (1/2 : ℚ) ∧ (1/2 : ℚ) < 1 :=
  (C5_solver_values_sorted c5_oracles [c5_atoms] 0 [c5_eqset] "A_aP1_1_a"
    (1 / 100000) [1/2, 1/3, 1/4] (by decide)).1 (1/2) (by decide)

end KimToolsProofs
